import Mathlib

/-!
Verification of the topology client (`topology_utils.py`) against its
specification.  The program is shallowly embedded: every Python string is
modelled as its list of characters (`PyString`), Python dictionaries as
insertion-ordered association lists, `xml.etree.ElementTree` elements as a
tag/text/children tree, and fallible Python code as `Except PyErr`.  The
relevant parts of the Python standard library used by the program
(`urllib.parse.urlsplit`, `urlunsplit`, `parse_qsl`, `urlencode`,
`quote_plus`/`unquote`, and `fnmatch.fnmatch`) are embedded as well,
following the CPython 3.11 sources.  Percent-coding is modelled at the
character level, which agrees with CPython exactly on ASCII data (CPython
encodes the UTF-8 bytes of non-ASCII characters); the theorems that depend
on coding round-trips carry explicit ASCII hypotheses.
-/

set_option autoImplicit false

namespace Topology

/-- Model of a Python `str`: a list of characters. -/
abbrev PyString := List Char

/-- Python truthiness of an optional string (`None` and the empty string
are falsy). -/
def truthyStr : Option PyString → Bool
  | none => false
  | some s => !s.isEmpty

/-- Python truthiness of an optional list (`None` and the empty list are
falsy). -/
def truthyList {α : Type} : Option (List α) → Bool
  | none => false
  | some l => !l.isEmpty

/-- The Python exceptions that the embedded code can raise. -/
inductive PyErr where
  /-- a bare `Exception(msg)` -/
  | exn (msg : PyString)
  /-- `InvalidPathError(msg)` (subclass of `AuthError`) -/
  | invalidPath (msg : PyString)
  /-- `IncorrectPasswordError(msg)` (subclass of `AuthError`) -/
  | incorrectPassword (msg : PyString)
  /-- a propagated `requests.exceptions.ConnectionError` -/
  | connectionError
  /-- `AttributeError` on reading the named attribute -/
  | attributeError (attr : String)
  /-- `KeyError` on the given dictionary key -/
  | keyError (key : PyString)
  /-- `NameError`/`UnboundLocalError` on the named local variable -/
  | nameError (name : String)
deriving Repr, DecidableEq

/-- Decidable equality of outcomes, for evaluating the embedded functions
on concrete inputs. -/
instance instDecEqExcept {ε α : Type} [DecidableEq ε] [DecidableEq α] :
    DecidableEq (Except ε α)
  | .ok a, .ok b =>
    if h : a = b then .isTrue (by rw [h]) else .isFalse (by simp [h])
  | .error a, .error b =>
    if h : a = b then .isTrue (by rw [h]) else .isFalse (by simp [h])
  | .ok _, .error _ => .isFalse (by simp)
  | .error _, .ok _ => .isFalse (by simp)

/-- Model of a Python `dict` with `PyString` keys: an insertion-ordered
association list.  Keys are unique in every dictionary the program
builds. -/
abbrev PyDict (α : Type) := List (PyString × α)

/-- Dictionary lookup, `d.get(k)`. -/
def dictGet? {α : Type} (d : PyDict α) (k : PyString) : Option α :=
  match d with
  | [] => none
  | (k', v) :: rest => if k' = k then some v else dictGet? rest k

/-- Dictionary update `d[k] = v`: overwrites in place, else appends. -/
def dictSet {α : Type} (d : PyDict α) (k : PyString) (v : α) : PyDict α :=
  match d with
  | [] => [(k, v)]
  | (k', v') :: rest =>
    if k' = k then (k, v) :: rest else (k', v') :: dictSet rest k v

/-- Dictionary deletion `del d[k]` (the key is always present where the
program uses it). -/
def dictDel {α : Type} (d : PyDict α) (k : PyString) : PyDict α :=
  match d with
  | [] => []
  | (k', v) :: rest => if k' = k then rest else (k', v) :: dictDel rest k

/-- Subscription `d[k]`, raising `KeyError` when the key is absent. -/
def pyGetItem {α : Type} (d : PyDict α) (k : PyString) : Except PyErr α :=
  match dictGet? d k with
  | some v => .ok v
  | none => .error (.keyError k)

/-- Python `str.split(sep)` for a one-character separator (no maxsplit). -/
def pySplit (sep : Char) : PyString → List PyString
  | [] => [[]]
  | c :: rest =>
    match pySplit sep rest with
    | [] => [[]]
    | h :: t => if c = sep then [] :: h :: t else (c :: h) :: t

/-- Python `str.split(sep, 1)`: the part before the first separator and,
when the separator occurs, the part after it. -/
def pySplit1 (sep : Char) : PyString → PyString × Option PyString
  | [] => ([], none)
  | c :: rest =>
    if c = sep then ([], some rest)
    else
      let p := pySplit1 sep rest
      (c :: p.1, p.2)

/-- The part before / after the first occurrence of a character, when the
character occurs at all (used for the scheme, fragment and query splits
of urlsplit). -/
def splitFirst? (sep : Char) (l : PyString) : Option (PyString × PyString) :=
  match pySplit1 sep l with
  | (_, none) => none
  | (a, some b) => some (a, b)

/-- Python `str.lower()` (ASCII model; all data handled here is ASCII). -/
def pyLower (s : PyString) : PyString := s.map Char.toLower

/-- Characters removed by Python `str.strip()` (ASCII whitespace). -/
def isPySpace (c : Char) : Bool :=
  c = ' ' || c = '\t' || c = '\n' || c = '\r' || c = '\x0b' || c = '\x0c'

/-- Python `str.strip()`. -/
def pyStrip (s : PyString) : PyString :=
  ((s.dropWhile isPySpace).reverse.dropWhile isPySpace).reverse

/-- Python substring containment, `needle in hay`. -/
def pySubstr (needle : PyString) : PyString → Bool
  | [] => needle.isEmpty
  | c :: rest => needle.isPrefixOf (c :: rest) || pySubstr needle rest

/-- Value of a hexadecimal digit character, either case
(CPython `_hextobyte` accepts both cases). -/
def hexDigitVal? (c : Char) : Option Nat :=
  if '0' ≤ c ∧ c ≤ '9' then some (c.toNat - 48)
  else if 'a' ≤ c ∧ c ≤ 'f' then some (c.toNat - 97 + 10)
  else if 'A' ≤ c ∧ c ≤ 'F' then some (c.toNat - 65 + 10)
  else none

/-- Upper-case hexadecimal digit for a value below 16
(CPython quoting formats bytes with "%02X"). -/
def hexDigitUpper (n : Nat) : Char := ("0123456789ABCDEF").toList.getD n '0'

/-! urllib.parse model (CPython 3.11, `Lib/urllib/parse.py`). -/

/-- urllib.parse.unquote: replace every valid `%xx` escape by the character
with that code; an invalid escape is kept literally.  Character-level model
of CPython's byte-level decoding; the two agree whenever every escape
decodes to an ASCII byte, which the ASCII hypotheses of the theorems below
guarantee. -/
def pyUnquoteF : Nat → PyString → PyString
  | 0, s => s
  | fuel + 1, l =>
    match l with
    | [] => []
    | '%' :: c1 :: c2 :: rest =>
      match hexDigitVal? c1, hexDigitVal? c2 with
      | some h1, some h2 => Char.ofNat (16 * h1 + h2) :: pyUnquoteF fuel rest
      | _, _ => '%' :: pyUnquoteF fuel (c1 :: c2 :: rest)
    | c :: rest => c :: pyUnquoteF fuel rest

/-- Entry point of the unquote model; each step of `pyUnquoteF` consumes at
least one character, so the string's length is always enough fuel. -/
def pyUnquote (s : PyString) : PyString := pyUnquoteF s.length s

/-- The characters CPython never quotes (`_ALWAYS_SAFE`): ASCII
alphanumerics and `_.-~`. -/
def alwaysSafe (c : Char) : Bool :=
  c.isAlphanum || c = '_' || c = '.' || c = '-' || c = '~'

/-- urllib.parse.quote_plus on one character: safe characters stand for
themselves, a space becomes `+`, anything else becomes an upper-case
percent escape (character-level model of the UTF-8 byte quoting; exact on
ASCII). -/
def quotePlusChar (c : Char) : PyString :=
  if alwaysSafe c then [c]
  else if c = ' ' then ['+']
  else ['%', hexDigitUpper (c.toNat / 16 % 16), hexDigitUpper (c.toNat % 16)]

/-- urllib.parse.quote_plus with `safe=""` (the `urlencode` default). -/
def pyQuotePlus (s : PyString) : PyString := s.flatMap quotePlusChar

/-- Replace `+` by a space (`parse_qsl` does this before unquoting). -/
def plusToSpace (s : PyString) : PyString :=
  s.map (fun c => if c = '+' then ' ' else c)

/-- One `name=value` chunk of a query string, as `parse_qsl` treats it with
default arguments: empty chunks, chunks without `=` and chunks with an
empty value are dropped; name and value get `+` replaced and unquoted. -/
def parseQslChunk (chunk : PyString) : Option (PyString × PyString) :=
  if chunk.isEmpty then none
  else
    match pySplit1 '=' chunk with
    | (_, none) => none
    | (name, some value) =>
      if value.isEmpty then none
      else some (pyUnquote (plusToSpace name), pyUnquote (plusToSpace value))

/-- urllib.parse.parse_qsl with default arguments: split on `&` (nothing
for an empty query) and parse each chunk. -/
def parse_qsl (qs : PyString) : List (PyString × PyString) :=
  (if qs.isEmpty then [] else pySplit '&' qs).filterMap parseQslChunk

/-- urllib.parse.urlencode with `doseq=True` on a list of string pairs:
quote each side with quote_plus, join with `=` and `&`. -/
def urlencode (query : List (PyString × PyString)) : PyString :=
  ((query.map (fun p => pyQuotePlus p.1 ++ '=' :: pyQuotePlus p.2)).intersperse ['&']).flatten

/-- The five components of urllib.parse.urlsplit
(scheme, netloc, path, query, fragment). -/
structure UrlParts where
  scheme : PyString
  netloc : PyString
  path : PyString
  query : PyString
  fragment : PyString
deriving Repr, DecidableEq

/-- Characters allowed in a URL scheme (`scheme_chars`). -/
def isSchemeChar (c : Char) : Bool :=
  c.isAlphanum || c = '+' || c = '-' || c = '.'

/-- Leading junk stripped by urlsplit (`_WHATWG_C0_CONTROL_OR_SPACE`). -/
def isC0ControlOrSpace (c : Char) : Bool := c.toNat ≤ 32

/-- Bytes removed anywhere in the URL by urlsplit
(`_UNSAFE_URL_BYTES_TO_REMOVE`). -/
def isUnsafeUrlByte (c : Char) : Bool := c = '\t' || c = '\r' || c = '\n'

/-- Scheme detection of urlsplit: the text before the first `:` is a scheme
when it is nonempty, starts with an ASCII letter and consists of scheme
characters only; it is then lower-cased and removed from the URL. -/
def splitScheme (url : PyString) : PyString × PyString :=
  match splitFirst? ':' url with
  | none => ([], url)
  | some (before, after) =>
    if !before.isEmpty && (before.headD ' ').isAlpha then
      if before.all isSchemeChar then (pyLower before, after) else ([], url)
    else ([], url)

/-- Netloc extraction of urlsplit (`_splitnetloc`): everything up to the
first `/`, `?` or `#`.  The bracketed-IPv6-host validation of CPython is
not modelled; no URL in this program carries brackets in its netloc, and
the theorems that quantify over hosts exclude them explicitly. -/
def splitNetloc (l : PyString) : PyString × PyString :=
  (l.takeWhile (fun c => !(c = '/' || c = '?' || c = '#')),
   l.dropWhile (fun c => !(c = '/' || c = '?' || c = '#')))

/-- urllib.parse.urlsplit (with `allow_fragments=True`). -/
def urlsplit (url0 : PyString) : UrlParts :=
  let url1 := (url0.dropWhile isC0ControlOrSpace).filter (fun c => !isUnsafeUrlByte c)
  let sp := splitScheme url1
  let scheme := sp.1
  let np := if sp.2.take 2 = ['/', '/'] then splitNetloc (sp.2.drop 2) else ([], sp.2)
  let fp := match splitFirst? '#' np.2 with
    | some p => p
    | none => (np.2, [])
  let qp := match splitFirst? '?' fp.1 with
    | some p => p
    | none => (fp.1, [])
  ⟨scheme, np.1, qp.1, qp.2, fp.2⟩

/-- The `uses_netloc` scheme list of urllib.parse. -/
def usesNetloc : List PyString :=
  [[], ("ftp").toList, ("http").toList, ("gopher").toList, ("nntp").toList,
   ("telnet").toList, ("imap").toList, ("wais").toList, ("file").toList,
   ("mms").toList, ("https").toList, ("shttp").toList, ("snews").toList,
   ("prospero").toList, ("rtsp").toList, ("rtsps").toList, ("rtspu").toList,
   ("rsync").toList, ("svn").toList, ("svn+ssh").toList, ("sftp").toList,
   ("nfs").toList, ("git").toList, ("git+ssh").toList, ("ws").toList,
   ("wss").toList]

/-- urllib.parse.urlunsplit. -/
def urlunsplit (p : UrlParts) : PyString :=
  let url := p.path
  let url :=
    if !p.netloc.isEmpty
        || (!p.scheme.isEmpty && usesNetloc.contains p.scheme && url.take 2 ≠ ['/', '/']) then
      let url := if !url.isEmpty && url.take 1 ≠ ['/'] then '/' :: url else url
      '/' :: '/' :: (p.netloc ++ url)
    else url
  let url := if !p.scheme.isEmpty then p.scheme ++ ':' :: url else url
  let url := if !p.query.isEmpty then url ++ '?' :: p.query else url
  let url := if !p.fragment.isEmpty then url ++ '#' :: p.fragment else url
  url

/-! fnmatch model (CPython 3.11, `Lib/fnmatch.py`).  `fnmatch.translate`
compiles a shell pattern to a regular expression; the model below is a
direct recursive matcher with the same semantics: `*` matches any
sequence, `?` any one character, `[seq]` a character class with ranges and
`!` negation, an unterminated `[` is literal, and a `]` right after `[`
(or after `[!`) is a literal member.  The star-compression and
atomic-group optimisations of `translate` do not change the matched
language, and `os.path.normcase` is the identity on POSIX, so
`fnmatch.fnmatch` equals this matcher there. -/

/-- Scan for the closing `]` of a bracket expression, returning the
content and the remainder. -/
def scanBracketClose : PyString → Option (PyString × PyString)
  | [] => none
  | c :: rest =>
    if c = ']' then some ([], rest)
    else (scanBracketClose rest).map (fun p => (c :: p.1, p.2))

/-- Split a bracket expression after its opening `[`: an initial `!` and a
`]` right after it are part of the content, as in `fnmatch.translate`. -/
def splitBracket : PyString → Option (PyString × PyString)
  | '!' :: ']' :: rest =>
    (scanBracketClose rest).map (fun p => ('!' :: ']' :: p.1, p.2))
  | '!' :: rest => (scanBracketClose rest).map (fun p => ('!' :: p.1, p.2))
  | ']' :: rest => (scanBracketClose rest).map (fun p => (']' :: p.1, p.2))
  | rest => scanBracketClose rest

/-- The ranges denoted by a bracket-expression body: `a-b` is a range, any
other character is a singleton; a trailing or leading `-` is literal.
An inverted range (`z-a`) matches nothing, exactly as the empty-range
elimination of `fnmatch.translate` arranges. -/
def rangesOf : PyString → List (Char × Char)
  | a :: '-' :: b :: rest => (a, b) :: rangesOf rest
  | a :: rest => (a, a) :: rangesOf rest
  | [] => []

/-- Membership of a character in a bracket expression (with `!` negation). -/
def inClass (c : Char) (content : PyString) : Bool :=
  match content with
  | '!' :: rest => !((rangesOf rest).any (fun p => p.1 ≤ c && c ≤ p.2))
  | _ => (rangesOf content).any (fun p => p.1 ≤ c && c ≤ p.2)

/-- Fuelled glob matcher; every recursive call shrinks the combined length
of pattern and name, so `fnmatch` below always supplies enough fuel. -/
def globMatchF : Nat → PyString → PyString → Bool
  | 0, _, _ => false
  | _ + 1, [], n => n.isEmpty
  | fuel + 1, '*' :: p, n =>
    globMatchF fuel p n ||
      (match n with
       | [] => false
       | _ :: n' => globMatchF fuel ('*' :: p) n')
  | fuel + 1, '?' :: p, n =>
    (match n with
     | [] => false
     | _ :: n' => globMatchF fuel p n')
  | fuel + 1, '[' :: rest, n =>
    (match splitBracket rest with
     | some pr =>
       match n with
       | [] => false
       | c :: n' => inClass c pr.1 && globMatchF fuel pr.2 n'
     | none =>
       match n with
       | [] => false
       | c :: n' => c = '[' && globMatchF fuel rest n')
  | fuel + 1, c :: p, n =>
    (match n with
     | [] => false
     | d :: n' => c = d && globMatchF fuel p n')

/-- fnmatch.fnmatch(name, pat) on a POSIX platform. -/
def fnmatch (name pat : PyString) : Bool :=
  globMatchF (pat.length + name.length + 1) pat name

/-! Embedding of `topology_utils.py`. -/

/-- An `xml.etree.ElementTree` element: tag, text and child elements. -/
inductive Element where
  | mk (tag : PyString) (text : Option PyString) (children : List Element)

/-- Tag of an element. -/
def Element.tag : Element → PyString
  | .mk t _ _ => t

/-- Text of an element (may be absent, Python `None`). -/
def Element.text : Element → Option PyString
  | .mk _ t _ => t

/-- Child elements, in document order. -/
def Element.children : Element → List Element
  | .mk _ _ c => c

/-- The CLI argument object (`args`) as the source reads it: every field
the embedded functions access via `args.<name>` or
`getattr(args, <name>, None)`. -/
structure Args where
  host : Option PyString := none
  cert : Option PyString := none
  key : Option PyString := none
  provides_service : Option PyString := none
  owner_vo : Option PyString := none
  name_filter : Option PyString := none
  fqdn_filter : Option PyString := none
  contact_type : List PyString := []
  contact_emails : Option (List PyString) := none

/-- A contact record: a dict from field name to the (possibly absent) text
of the corresponding XML child element. -/
abbrev ContactRecord := PyDict (Option PyString)

/-- A result set: dict from entity key (resource name, FQDN or VO name) to
that entity's contact records. -/
abbrev ResultSet := PyDict (List ContactRecord)

/-- Shortcut instance keeping instance terms small on the nested record
types. -/
instance instDecEqContactRecord : DecidableEq ContactRecord :=
  fun a b => instDecidableEqList a b

/-- Shortcut instance keeping instance terms small on result sets. -/
instance instDecEqResultSet : DecidableEq ResultSet :=
  fun a b => instDecidableEqList a b

/-- Python `update_url_hostname(url, args)`: if `args.host` is truthy,
replace the netloc component, else return the URL unchanged. -/
def update_url_hostname (url : PyString) (args : Args) : PyString :=
  if !truthyStr args.host then url
  else urlunsplit { urlsplit url with netloc := args.host.getD [] }

/-- Evaluation of `x.lower()` when `x` is an optional string: `None` has no
`lower` attribute. -/
def lowerOrRaise : Option PyString → Except PyErr PyString
  | none => .error (.attributeError ("lower"))
  | some s => .ok (pyLower s)

/-- The classification-element test of `get_contact_list_info`, the
source's disjunction `contact.tag == 'ContactType' or contact.tag ==
'Type'` (tag `ContactType` in Shape A, `Type` in Shape B). -/
def isClassEl (e : Element) : Bool :=
  e.tag = ("ContactType").toList || e.tag = ("Type").toList

/-- One emitted record of `get_contact_list_info`: the dict seeded with
`ContactType` and then updated with every sub-element's tag and text. -/
def buildContactRecord (clt : PyString) (con : Element) : ContactRecord :=
  con.children.foldl (fun r cc => dictSet r cc.tag cc.text)
    [(("ContactType").toList, some clt)]

/-- The inner loop over a `Contacts` container: one record per child
contact element.  Reading the loop-local `contact_list_type` before any
classification sibling assigned it raises `UnboundLocalError`, which only
happens when the container is nonempty. -/
def emitContacts (clt : Option PyString) : List Element → Except PyErr (List ContactRecord)
  | [] => .ok []
  | con :: rest => do
    let s ← match clt with
      | none => Except.error (.nameError ("contact_list_type"))
      | some s => Except.ok s
    let r ← emitContacts clt rest
    Except.ok (buildContactRecord s con :: r)

/-- The sibling walk of `get_contact_list_info`: a `ContactType` or `Type`
sibling updates the current classification (lower-cased text), a
`Contacts` sibling emits one record per child. -/
def get_contact_list_info_go (clt : Option PyString) :
    List Element → Except PyErr (List ContactRecord)
  | [] => .ok []
  | contact :: rest => do
    let clt ←
      if isClassEl contact then do
        let t ← lowerOrRaise contact.text
        pure (some t)
      else pure clt
    let emitted ←
      if contact.tag = ("Contacts").toList then emitContacts clt contact.children
      else pure []
    let later ← get_contact_list_info_go clt rest
    pure (emitted ++ later)

/-- Python `get_contact_list_info(contact_list)`. -/
def get_contact_list_info (contact_list : Element) : Except PyErr (List ContactRecord) :=
  get_contact_list_info_go none contact_list.children

/-- The key-filter deletion loop of `filter_contacts`:
`for name in list(results): if not fnmatch(...) and pat not in name: del results[name]`. -/
def keyFilterLoop (pat : PyString) (keys : List PyString) (results : ResultSet) : ResultSet :=
  match keys with
  | [] => results
  | name :: rest =>
    keyFilterLoop pat rest
      (if !fnmatch name pat && !pySubstr pat name then dictDel results name else results)

/-- The name/FQDN key-filter stage of `filter_contacts`. -/
def keyFilterStage (pat : PyString) (results : ResultSet) : ResultSet :=
  keyFilterLoop pat (results.map Prod.fst) results

/-- Evaluation of `x.startswith(t)` when `x` is an optional string. -/
def startswithOrRaise : Option PyString → PyString → Except PyErr Bool
  | none, _ => .error (.attributeError ("startswith"))
  | some s, t => .ok (t.isPrefixOf s)

/-- The inner loop of the contact-type stage: the contact is appended once
for every requested type that is a prefix of its `ContactType` value. -/
def typeAppends (ctv : Option PyString) (contact : ContactRecord) :
    List PyString → Except PyErr (List ContactRecord)
  | [] => .ok []
  | t :: rest => do
    let b ← startswithOrRaise ctv t
    let more ← typeAppends ctv contact rest
    pure (if b then contact :: more else more)

/-- Per-entity contact list of the contact-type stage. -/
def typeFilterContacts (types : List PyString) :
    List ContactRecord → Except PyErr (List ContactRecord)
  | [] => .ok []
  | c :: rest => do
    let ctv ← pyGetItem c (("ContactType").toList)
    let here ← typeAppends ctv c types
    let there ← typeFilterContacts types rest
    pure (here ++ there)

/-- The contact-type stage over all entities: an entity whose filtered
contact list is empty is deleted, otherwise its list is replaced. -/
def typeFilterStage (types : List PyString) : ResultSet → Except PyErr ResultSet
  | [] => .ok []
  | (k, v) :: rest => do
    let cl ← typeFilterContacts types v
    let there ← typeFilterStage types rest
    pure (if cl.isEmpty then there else (k, cl) :: there)

/-- Per-entity contact list of the contact-email stage:
`[contact for contact in results[name] if contact['Email'] in emails]`. -/
def emailFilterContacts (emails : List PyString) :
    List ContactRecord → Except PyErr (List ContactRecord)
  | [] => .ok []
  | c :: rest => do
    let ev ← pyGetItem c (("Email").toList)
    let there ← emailFilterContacts emails rest
    pure (if (match ev with
              | none => false
              | some e => emails.contains e) then c :: there else there)

/-- The contact-email stage over all entities. -/
def emailFilterStage (emails : List PyString) : ResultSet → Except PyErr ResultSet
  | [] => .ok []
  | (k, v) :: rest => do
    let cl ← emailFilterContacts emails v
    let there ← emailFilterStage emails rest
    pure (if cl.isEmpty then there else (k, cl) :: there)

/-- Python `filter_contacts(args, results)`. -/
def filter_contacts (args : Args) (results : ResultSet) : Except PyErr ResultSet := do
  let results :=
    if truthyStr args.name_filter then keyFilterStage (args.name_filter.getD []) results
    else if truthyStr args.fqdn_filter then keyFilterStage (args.fqdn_filter.getD []) results
    else results
  let results ←
    if !(args.contact_type.contains (("all").toList)) then
      typeFilterStage args.contact_type results
    else pure results
  if truthyList args.contact_emails then
    emailFilterStage (args.contact_emails.getD []) results
  else pure results

/-- The static service table `TopologyPoolManager.SERVICE_IDS`, in source
order. -/
def SERVICE_IDS : List (PyString × Nat) :=
  [(("ce").toList, 1),
   (("srmv2").toList, 3),
   (("gridftp").toList, 5),
   (("xrootd").toList, 142),
   (("perfsonar-bandwidth").toList, 130),
   (("perfsonar-latency").toList, 130),
   (("gums").toList, 101)]

/-- Join a list of strings with a comma and a space, Python
`", ".join(...)`; joining a dict iterates its keys in insertion order. -/
def joinCommaSpace (l : List PyString) : PyString :=
  (l.intersperse ((", ").toList)).flatten

/-- The service loop of `mangle_url`: each comma-separated name is
stripped, lower-cased and looked up in `SERVICE_IDS`; a missing (or zero,
`if not service_id`) id raises, otherwise a `service_sel[]` parameter is
appended. -/
def resolveServices : List PyString → Except PyErr (List (PyString × PyString))
  | [] => .ok []
  | svc :: rest =>
    let svc := pyLower (pyStrip svc)
    match dictGet? SERVICE_IDS svc with
    | none =>
      .error (.exn ((("Requested service ")).toList ++ svc
        ++ ((" not known; known service names: ")).toList
        ++ joinCommaSpace (SERVICE_IDS.map Prod.fst)))
    | some id =>
      if id = 0 then
        .error (.exn ((("Requested service ")).toList ++ svc
          ++ ((" not known; known service names: ")).toList
          ++ joinCommaSpace (SERVICE_IDS.map Prod.fst)))
      else
        (resolveServices rest).map
          (fun l => ((("service_sel[]")).toList, (toString id).toList) :: l)

/-- The cached VO map: dict from lower-cased VO name to the text of the
VO's ID element (which Python allows to be `None`). -/
abbrev VoMap := PyDict (Option PyString)

/-- The owner-VO loop of `mangle_url`: a missing or falsy (`None` or
empty) id raises, otherwise a `voown_sel[]` parameter is appended
(`str(vo_id)` is the identity on the stored string). -/
def resolveVos (vo_map : VoMap) : List PyString → Except PyErr (List (PyString × PyString))
  | [] => .ok []
  | vo :: rest =>
    let vo := pyLower (pyStrip vo)
    match dictGet? vo_map vo with
    | none =>
      .error (.exn ((("Requested owner VO ")).toList ++ vo
        ++ ((" not known; known VOs: ")).toList ++ joinCommaSpace (vo_map.map Prod.fst)))
    | some idv =>
      if !truthyStr idv then
        .error (.exn ((("Requested owner VO ")).toList ++ vo
          ++ ((" not known; known VOs: ")).toList ++ joinCommaSpace (vo_map.map Prod.fst)))
      else
        (resolveVos vo_map rest).map
          (fun l => ((("voown_sel[]")).toList, idv.getD []) :: l)

/-- Python `TopologyPoolManager.mangle_url(url, args)`.  The call
`self.get_vo_map(args)` in the owner-VO branch is an HTTP interaction; its
outcome is passed in as `vo_map_fetch`.  When `args.host` is falsy the
source returns the URL unchanged at once, before any filter handling. -/
def mangle_url (vo_map_fetch : Except PyErr VoMap) (url : PyString) (args : Args) :
    Except PyErr PyString :=
  if !truthyStr args.host then .ok url
  else do
  let u := urlsplit url
  let netloc := args.host.getD []
  let qsKeys := (parse_qsl u.query).map Prod.fst
  let qs_list := parse_qsl u.query
  let qs_list ←
    if truthyStr args.provides_service then do
      let qs_list :=
        if qsKeys.contains (("service").toList) then qs_list
        else qs_list ++ [((("service")).toList, (("on")).toList)]
      let sels ← resolveServices (pySplit ',' (args.provides_service.getD []))
      pure (qs_list ++ sels)
    else pure qs_list
  let qs_list ←
    if truthyStr args.owner_vo then do
      let vo_map ← vo_map_fetch
      let qs_list :=
        if qsKeys.contains (("voown").toList) then qs_list
        else qs_list ++ [((("voown")).toList, (("on")).toList)]
      let sels ← resolveVos vo_map (pySplit ',' (args.owner_vo.getD []))
      pure (qs_list ++ sels)
    else pure qs_list
  return urlunsplit { u with netloc := netloc, query := urlencode qs_list }

/-- The query pairs after the service-flag step of `mangle_url`: the flag
pair `service=on` is appended once, only when the base query carries no
`service` key (`if 'service' not in qs_dict: qs_list.append(("service",
"on"))`). -/
def withServiceFlag (base : List (PyString × PyString)) : List (PyString × PyString) :=
  if (base.map Prod.fst).contains ((("service")).toList) then base
  else base ++ [((("service")).toList, (("on")).toList)]

/-- The voown-flag step of `mangle_url`: the flag pair `voown=on` is
appended once, only when the base query (whose keys are passed separately,
since the code checks `qs_dict`, parsed from the original query) carries no
`voown` key (`if 'voown' not in qs_dict: qs_list.append(("voown",
"on"))`). -/
def withVoownFlag (baseKeys : List PyString) (qs : List (PyString × PyString)) :
    List (PyString × PyString) :=
  if baseKeys.contains ((("voown")).toList) then qs
  else qs ++ [((("voown")).toList, (("on")).toList)]

/-- The query pairs after the service stage of `mangle_url`: when a
service-filter intent is present, the flag step followed by the resolved
`service_sel[]` selectors; otherwise the base query unchanged. -/
def serviceStage (args : Args) (base ssels : List (PyString × PyString)) :
    List (PyString × PyString) :=
  if truthyStr args.provides_service then withServiceFlag base ++ ssels else base

/-- The query pairs `mangle_url` re-encodes: the service stage, then, when
an owning-VO intent is present, the voown-flag step followed by the
resolved `voown_sel[]` selectors. -/
def mangledQuery (args : Args) (base ssels vsels : List (PyString × PyString)) :
    List (PyString × PyString) :=
  if truthyStr args.owner_vo then
    withVoownFlag (base.map Prod.fst) (serviceStage args base ssels) ++ vsels
  else serviceStage args base ssels

/-- The session dict assembled by `get_auth_session`. -/
structure SessionDict where
  cert_file : PyString
  key_file : PyString
  cert_reqs : PyString
  key_password : PyString
deriving Repr, DecidableEq

/-- Python `TopologyPoolManager.get_auth_session(args)`.  The ambient
inputs are explicit: the effective uid, the `X509_USER_PROXY` environment
variable, the `os.path.exists` oracle and the `getpass` result. -/
def get_auth_session (euid : Nat) (x509_user_proxy : Option PyString)
    (path_exists : PyString → Bool) (getpass_result : PyString) (args : Args) :
    Except PyErr SessionDict := do
  let cert :=
    if euid = 0 then (("/etc/grid-security/hostcert.pem")).toList
    else (("/tmp/x509up_u")).toList ++ (toString euid).toList
  let key :=
    if euid = 0 then (("/etc/grid-security/hostkey.pem")).toList
    else (("/tmp/x509up_u")).toList ++ (toString euid).toList
  let cert := x509_user_proxy.getD cert
  let key := x509_user_proxy.getD key
  let cert := if truthyStr args.cert then args.cert.getD [] else cert
  let key := if truthyStr args.key then args.key.getD [] else key
  if !path_exists cert then
    throw (.invalidPath ((("Error: could not find cert at ")).toList ++ cert))
  if !path_exists key then
    throw (.invalidPath ((("Error: could not find key at ")).toList ++ key))
  return { cert_file := cert, key_file := key,
           cert_reqs := (("CERT_REQUIRED")).toList, key_password := getpass_result }

/-- A urllib3 `HTTPResponse`, the value returned by
`urllib3.PoolManager.request`: it carries `status` and `data`. -/
structure HTTPResponse where
  status : Nat
  data : PyString
deriving Repr, DecidableEq

/-- Reading `response.status_code` on a urllib3 `HTTPResponse`.  That
attribute belongs to the requests library's response type; urllib3
responses do not define it, so the read raises `AttributeError`. -/
def HTTPResponse.status_code (_ : HTTPResponse) : Except PyErr Nat :=
  .error (.attributeError ("status_code"))

/-- Reading `response.text` on a urllib3 `HTTPResponse`: same situation as
`status_code`, the attribute does not exist. -/
def HTTPResponse.text (_ : HTTPResponse) : Except PyErr PyString :=
  .error (.attributeError ("text"))

/-- Reading `response.content` on a urllib3 `HTTPResponse`: same situation
as `status_code`, the attribute does not exist. -/
def HTTPResponse.content (_ : HTTPResponse) : Except PyErr PyString :=
  .error (.attributeError ("content"))

/-- Outcome of `self.request('GET', url)`: a response, a
`requests.exceptions.ConnectionError` (with the value of
`exc.args[0].args[1].errno` when that attribute chain exists, and its
printed form), or any other raised exception. -/
inductive RequestOutcome where
  | success (r : HTTPResponse)
  | connError (printed : PyString) (nested_errno : Option Int)
  | raised (e : PyErr)

/-- The walk over the parsed VO summary that builds the VO map
(`get_vo_map`, loop over `root`): a child that is not a `VO` raises; a VO
record enters the map only when it has both an ID and a Name
(`vo_info['Name'].lower()` raises if the Name element is empty). -/
def build_vo_map (rootTag : PyString) (acc : VoMap) :
    List Element → Except PyErr VoMap
  | [] => .ok acc
  | child :: rest =>
    if child.tag ≠ ("VO").toList then
      .error (.exn ((("MyOSG returned a non-VO  (")).toList ++ rootTag
        ++ ((") inside VO summary.")).toList))
    else
      let vo_info := child.children.foldl (fun d c => dictSet d c.tag c.text) []
      match dictGet? vo_info (("ID").toList), dictGet? vo_info (("Name").toList) with
      | some idv, some namev => do
        let nm ← lowerOrRaise namev
        build_vo_map rootTag (dictSet acc nm idv) rest
      | _, _ => build_vo_map rootTag acc rest

/-- Python `TopologyPoolManager.get_vo_map(args)`, with the process
environment threaded through: the result pairs the final value of the
`no_proxy` environment variable with the outcome.  The source pops
`no_proxy`, sets it to `.opensciencegrid.org`, performs the request and
restores the old value only *after* the request line, so any exception
raised by `get_auth_session` or by the request leaves the override in
place.  After a completed request the source reads
`response.status_code`, which a urllib3 response does not have. -/
def get_vo_map_run (no_proxy0 : Option PyString) (session0 : Bool)
    (auth : Except PyErr SessionDict) (request : RequestOutcome)
    (fromstring : PyString → Except PyErr Element) (args : Args) :
    Option PyString × Except PyErr VoMap :=
  let old := no_proxy0
  let env : Option PyString := some ((".opensciencegrid.org")).toList
  let _url := update_url_hostname
    (("https://topology.opensciencegrid.org/vosummary/xml?all_vos=on&active_value=1")).toList
    args
  match (if session0 then .ok () else auth.map (fun _ => ())) with
  | .error e => (env, .error e)
  | .ok _ =>
    match request with
    | .connError _ _ => (env, .error .connectionError)
    | .raised e => (env, .error e)
    | .success response =>
      let env := old
      match response.status_code with
      | .error e => (env, .error e)
      | .ok sc =>
        if sc ≠ 200 then
          match response.text with
          | .error e => (env, .error e)
          | .ok t =>
            (env, .error (.exn ((("MyOSG request failed (status ")).toList
              ++ (toString sc).toList ++ (("): ")).toList ++ t.take 2048)))
        else
          match response.content with
          | .error e => (env, .error e)
          | .ok body =>
            match fromstring body with
            | .error e => (env, .error e)
            | .ok root =>
              if root.tag ≠ ("VOSummary").toList then
                (env, .error (.exn ((("MyOSG returned invalid XML with root tag ")).toList
                  ++ root.tag)))
              else (env, build_vo_map root.tag [] root.children)

/-- Python `TopologyPoolManager.get_contacts(args, urltype, roottype)`,
with the `no_proxy` environment variable and the printed diagnostics
threaded through: the result is (final `no_proxy`, printed lines oldest
first, outcome).  As in `get_vo_map`, the restore of `no_proxy` sits after
the request block, not in a `finally`, so exceptions raised by
`get_auth_session`, by `mangle_url` or by the request leave the override
in place.  On a non-success HTTP status the source formats a diagnostic
from `response.status_code` and `response.text`, attributes a urllib3
response does not have, so that line raises `AttributeError` before
anything is printed. -/
def get_contacts_run (no_proxy0 : Option PyString) (session0 : Bool)
    (auth : Except PyErr SessionDict) (vo_map_fetch : Except PyErr VoMap)
    (request : RequestOutcome) (fromstring : PyString → Except PyErr Element)
    (args : Args) (urltype roottype : PyString) :
    Option PyString × List PyString × Except PyErr (Option Element) :=
  let old := no_proxy0
  let env : Option PyString := some ((".opensciencegrid.org")).toList
  let base_url := (("https://topology.opensciencegrid.org/")).toList ++ urltype
    ++ (("summary/xml?&active=on&active_value=1&disable=on&disable_value=0")).toList
  match (if session0 then .ok () else auth.map (fun _ => ())) with
  | .error e => (env, [], .error e)
  | .ok _ =>
    match mangle_url vo_map_fetch base_url args with
    | .error e => (env, [], .error e)
    | .ok _url =>
      match request with
      | .raised e => (env, [], .error e)
      | .connError printed nested =>
        (match nested with
         | some errno =>
           if errno = 22 then
             (env, [printed],
              .error (.incorrectPassword (("Incorrect password, please try again")).toList))
           else (env, [printed], .error .connectionError)
         | none => (env, [printed, printed], .error .connectionError))
      | .success response =>
        let env := old
        if response.status ≠ 200 then
          match response.status_code with
          | .error e => (env, [], .error e)
          | .ok sc =>
            match response.text with
            | .error e => (env, [], .error e)
            | .ok t =>
              (env, [(("MyOSG request failed (status ")).toList ++ (toString sc).toList
                ++ (("): ")).toList ++ t.take 2048], .ok none)
        else
          match fromstring response.data with
          | .error e => (env, [], .error e)
          | .ok root =>
            if root.tag ≠ roottype ++ ("Summary").toList then
              (env, [(("MyOSG returned invalid XML with root tag ")).toList ++ root.tag],
               .ok none)
            else (env, [], .ok (some root))

/-- Result of `get_vo_contacts`: either the integer exit code `1` or a
result-set dict (the Python function returns one or the other). -/
inductive VoContactsOut where
  | exitCode (n : Nat)
  | results (rs : ResultSet)
deriving Repr, DecidableEq

/-- The loop `for contact_type in item` of `get_vo_contacts` over a
`ContactTypes` container. -/
def gatherCTList : List Element → Except PyErr (List ContactRecord)
  | [] => .ok []
  | ct :: rest => do
    let a ← get_contact_list_info ct
    let b ← gatherCTList rest
    pure (a ++ b)

/-- The loop `for item in child_vo` of `get_vo_contacts`: every
`ContactTypes` item contributes its contact records in order. -/
def gatherContactTypes : List Element → Except PyErr (List ContactRecord)
  | [] => .ok []
  | item :: rest => do
    let here ←
      if item.tag = ("ContactTypes").toList then gatherCTList item.children
      else pure []
    let there ← gatherContactTypes rest
    pure (here ++ there)

/-- The walk of `get_vo_contacts` over the children of the parsed VO
summary root, paired with the lines printed to stderr: a child that is not
a `VO` prints a diagnostic (formatting the *root's* tag, as the source
does) and makes the function return the exit code `1`; otherwise the VO's
last `Name` text and its gathered contacts enter the result set when both
are truthy. -/
def vo_walk_children (rootTag : PyString) (acc : ResultSet) :
    List Element → List PyString × Except PyErr VoContactsOut
  | [] => ([], .ok (.results acc))
  | child :: rest =>
    if child.tag ≠ ("VO").toList then
      ([(("MyOSG returned a non-VO (")).toList ++ rootTag
         ++ ((") inside summary.")).toList],
       .ok (.exitCode 1))
    else
      let name := child.children.foldl
        (fun a i => if i.tag = ("Name").toList then i.text else a) none
      match gatherContactTypes child.children with
      | .error e => ([], .error e)
      | .ok info =>
        let acc :=
          if truthyStr name && !info.isEmpty then dictSet acc (name.getD []) info else acc
        vo_walk_children rootTag acc rest

/-- The result-building part of `TopologyPoolManager.get_vo_contacts`,
given the root returned by a successful fetch. -/
def get_vo_contacts_walk (root : Element) : List PyString × Except PyErr VoContactsOut :=
  vo_walk_children root.tag [] root.children

/-- The loop `for contact_list in resource_tag` of
`get_resource_contacts_by_name_and_fqdn` over a `ContactLists`
container: only children tagged `ContactList` contribute. -/
def gatherCLs : List Element → Except PyErr (List ContactRecord)
  | [] => .ok []
  | cl :: rest => do
    let a ←
      if cl.tag = ("ContactList").toList then get_contact_list_info cl
      else pure []
    let b ← gatherCLs rest
    pure (a ++ b)

/-- The loop `for resource_tag in resource` of
`get_resource_contacts_by_name_and_fqdn`: every `ContactLists` child
contributes its records in order. -/
def gatherContactLists : List Element → Except PyErr (List ContactRecord)
  | [] => .ok []
  | t :: rest => do
    let here ←
      if t.tag = ("ContactLists").toList then gatherCLs t.children
      else pure []
    let there ← gatherContactLists rest
    pure (here ++ there)

/-- Processing of one `Resource` element: pick up the last `Name` and
`FQDN` texts and the gathered contact records; when records were found the
resource enters whichever of the two result sets it has a truthy key
for. -/
def process_resource (accs : ResultSet × ResultSet) (resource : Element) :
    Except PyErr (ResultSet × ResultSet) := do
  let name := resource.children.foldl
    (fun a t => if t.tag = ("Name").toList then t.text else a) none
  let fqdn := resource.children.foldl
    (fun a t => if t.tag = ("FQDN").toList then t.text else a) none
  let info ← gatherContactLists resource.children
  if !info.isEmpty then
    let aN := if truthyStr name then dictSet accs.1 (name.getD []) info else accs.1
    let aF := if truthyStr fqdn then dictSet accs.2 (fqdn.getD []) info else accs.2
    pure (aN, aF)
  else pure accs

/-- Fold `process_resource` over the resources of one `Resources`
container. -/
def process_resources (accs : ResultSet × ResultSet) :
    List Element → Except PyErr (ResultSet × ResultSet)
  | [] => .ok accs
  | r :: rest => do
    let accs ← process_resource accs r
    process_resources accs rest

/-- The loop `for child_res in child_rg` of
`get_resource_contacts_by_name_and_fqdn`: children not tagged `Resources`
are skipped. -/
def process_rg_children (accs : ResultSet × ResultSet) :
    List Element → Except PyErr (ResultSet × ResultSet)
  | [] => .ok accs
  | c :: rest => do
    let accs ←
      if c.tag = ("Resources").toList then process_resources accs c.children
      else pure accs
    process_rg_children accs rest

/-- The walk of `get_resource_contacts_by_name_and_fqdn` over the children
of the parsed resource-group summary root, paired with the printed lines:
a child that is not a `ResourceGroup` prints a diagnostic (formatting the
root's tag) and makes the function return two fresh empty dicts,
discarding anything accumulated. -/
def rg_walk_children (rootTag : PyString) (accs : ResultSet × ResultSet) :
    List Element → List PyString × Except PyErr (ResultSet × ResultSet)
  | [] => ([], .ok accs)
  | rg :: rest =>
    if rg.tag ≠ ("ResourceGroup").toList then
      ([(("MyOSG returned a non-resource group (")).toList ++ rootTag
         ++ ((") inside summary.")).toList],
       .ok ([], []))
    else
      match process_rg_children accs rg.children with
      | .error e => ([], .error e)
      | .ok accs => rg_walk_children rootTag accs rest

/-- The result-building part of
`TopologyPoolManager.get_resource_contacts_by_name_and_fqdn`, given the
root returned by a successful fetch. -/
def get_resource_contacts_walk (root : Element) :
    List PyString × Except PyErr (ResultSet × ResultSet) :=
  rg_walk_children root.tag ([], []) root.children

/-! Specification-side definitions.  These follow the wording of the
specification (they are the comparison point of the refinement claims)
rather than the source. -/

/-- Well-shapedness of a contact-list sibling sequence in Shape A or
Shape B, per the specification: every classification element carries text;
every `Contacts` container is preceded by a classification sibling; and
the individual contact elements supply field sub-elements (Name, Email,
...), none of which is itself a `ContactType` field — the classification
lives at the list level in both shapes.  The flag records whether a
classification sibling has appeared yet. -/
def wellShapedFrom (seen : Bool) : List Element → Bool
  | [] => true
  | e :: rest =>
    if isClassEl e then e.text.isSome && wellShapedFrom true rest
    else if e.tag = ("Contacts").toList then
      seen
        && e.children.all (fun con =>
             con.children.all (fun cc => cc.tag ≠ ("ContactType").toList))
        && wellShapedFrom seen rest
    else wellShapedFrom seen rest

/-- A contact list in Shape A or Shape B (no classification seen yet at
the start). -/
def wellShaped (l : List Element) : Bool := wellShapedFrom false l

/-- Tracking of the current classification along the siblings: a
classification element replaces it with its lower-cased text. -/
def updClass (a : Option PyString) (e : Element) : Option PyString :=
  if isClassEl e then e.text.map pyLower else a

/-- The lower-cased text of the nearest preceding classification element
among the first `i` siblings (the one that most recently appeared). -/
def nearestClassification (siblings : List Element) (i : Nat) : Option PyString :=
  (siblings.take i).foldl updClass none

/-- The record the specification prescribes for one contact element: the
`ContactType` field carries the given classification, and every
sub-element contributes its tag and text. -/
def specContactRecord (ct : Option PyString) (con : Element) : ContactRecord :=
  con.children.foldl (fun r cc => dictSet r cc.tag cc.text)
    [(("ContactType").toList, ct)]

/-- The records of the Contact Normalizer as the specification describes
them: in document order, every `Contacts` container at position `i` emits
one record per child contact element, classified by the nearest preceding
classification element. -/
def contactRecordsSpec (siblings : List Element) : List ContactRecord :=
  siblings.enum.flatMap (fun p =>
    if p.2.tag = ("Contacts").toList then
      p.2.children.map (specContactRecord (nearestClassification siblings p.1))
    else [])

/-- Recursive form of `contactRecordsSpec` used by the proofs, tracking
the current classification. -/
def contactRecordsFrom (cur : Option PyString) : List Element → List ContactRecord
  | [] => []
  | e :: rest =>
    (if e.tag = ("Contacts").toList then
       e.children.map (specContactRecord (updClass cur e))
     else [])
      ++ contactRecordsFrom (updClass cur e) rest

/-! Wellformedness predicates for URL components, used as hypotheses of
the Query Builder theorems.  They are ASCII-only and exclude the
characters that urlsplit treats as delimiters of the respective
component. -/

/-- An ASCII character (CPython's percent-coding agrees with the
character-level model exactly on these). -/
def asciiChar (c : Char) : Bool := c.toNat < 128

/-- An ASCII string. -/
def asciiStr (s : PyString) : Bool := s.all asciiChar

/-- A scheme that urlsplit recovers unchanged: nonempty, initial letter,
scheme characters only, already lower-case. -/
def goodScheme (s : PyString) : Bool :=
  !s.isEmpty && (s.headD ' ').isAlpha && s.all isSchemeChar && s.all (fun c => c.toLower = c)

/-- A character allowed in a host name for round-tripping: ASCII, not a
control character or space, and none of the delimiters `/?#` or the
IPv6 brackets. -/
def goodHostChar (c : Char) : Bool :=
  asciiChar c && 32 < c.toNat && !(c = '/' || c = '?' || c = '#' || c = '[' || c = ']')

/-- A host usable for the hostname override. -/
def goodHost (h : PyString) : Bool := !h.isEmpty && h.all goodHostChar

/-- A path character for round-tripping: ASCII, not `?`, `#` or a removed
byte. -/
def goodPathChar (c : Char) : Bool := asciiChar c && !(c = '?' || c = '#' || isUnsafeUrlByte c)

/-- A path that urlunsplit/urlsplit round-trip: empty or starting with a
slash, with good characters. -/
def goodPath (p : PyString) : Bool := (p.isEmpty || p.headD ' ' = '/') && p.all goodPathChar

/-- A fragment character for round-tripping: ASCII, not `#` or a removed
byte. -/
def goodFragChar (c : Char) : Bool := asciiChar c && !(c = '#' || isUnsafeUrlByte c)

/-- A query character for round-tripping: ASCII, none of the delimiters
`?#` and not a removed byte.  Every character `urlencode` emits satisfies
this. -/
def goodQueryChar (c : Char) : Bool :=
  asciiChar c && !(c = '?' || c = '#' || isUnsafeUrlByte c)

/-- A fragment that urlunsplit/urlsplit round-trip. -/
def goodFrag (f : PyString) : Bool := f.all goodFragChar

/-- ASCII-ness of both components of every parsed query pair; under this
condition the character-level coding model agrees with CPython and the
encode/decode round-trip below applies. -/
def asciiPairs (l : List (PyString × PyString)) : Bool :=
  l.all (fun p => asciiStr p.1 && asciiStr p.2)

/-- The Query Builder arguments of the C1 witness: an alternate host, one
requested service and one requested owner VO. -/
def exampleServiceArgs : Args :=
  { host := some (("example.com")).toList,
    provides_service := some (("ce")).toList,
    owner_vo := some (("atlas")).toList }

/-- The VO map of the C1 witness: one VO with ID text 42. -/
def exampleVoMap : VoMap := [((("atlas")).toList, some (("42")).toList)]

/-- A concrete contact list mixing the two classification tags: an
administrative classification, one contact, then a security
classification and two more contacts. -/
def exampleContactList : Element :=
  .mk (("ContactList")).toList none
    [.mk (("ContactType")).toList (some (("Administrative Contact")).toList) [],
     .mk (("Contacts")).toList none
       [.mk (("Contact")).toList none
         [.mk (("Name")).toList (some (("Ada")).toList) [],
          .mk (("Email")).toList (some (("ada@x.org")).toList) []]],
     .mk (("Type")).toList (some (("Security Contact")).toList) [],
     .mk (("Contacts")).toList none
       [.mk (("Contact")).toList none
         [.mk (("Name")).toList (some (("Bob")).toList) []],
        .mk (("Contact")).toList none
         [.mk (("Name")).toList (some (("Cem")).toList) []]]]

/-- A concrete argument object carrying both a name filter and an FQDN
filter. -/
def exampleBothFilters : Args :=
  { name_filter := some (("site*")).toList,
    fqdn_filter := some (("*.org")).toList,
    contact_type := [(("all")).toList] }

/-- A concrete result set with two entities. -/
def exampleTwoSites : ResultSet :=
  [((("siteA")).toList, [[((("ContactType")).toList, some (("security")).toList)]]),
   ((("other.org")).toList, [[((("ContactType")).toList, some (("security")).toList)]])]

/-- The resource-group base query URL of `get_contacts`. -/
def exampleBaseUrl : PyString :=
  (("https://topology.opensciencegrid.org/rgsummary/xml?&active=on&active_value=1&disable=on&disable_value=0")).toList

/-- The arguments of the C5 witness: alternate host and unknown service. -/
def exampleUnknownService : Args :=
  { host := some (("example.com")).toList,
    provides_service := some (("foo123")).toList }

/-! Theorems. -/

/-- Bind on a successful Except value reduces. -/
theorem ok_bind {ε α β : Type} (a : α) (f : α → Except ε β) :
    (Except.ok a : Except ε α) >>= f = f a := rfl

/-- Bind on a failed Except value reduces. -/
theorem error_bind {ε α β : Type} (e : ε) (f : α → Except ε β) :
    (Except.error e : Except ε α) >>= f = .error e := rfl

/-- Pure of the Except monad is ok. -/
theorem pure_eq_ok {ε α : Type} (a : α) : (pure a : Except ε α) = .ok a := rfl

/-- C7: for the result set with siteA's administrative and security
contacts, no name/FQDN filter and no email filter, filtering with
contact_type = ["administrative"] keeps exactly the administrative record
under siteA, and filtering with contact_type = ["miscellaneous"] removes
siteA entirely, returning the empty mapping. -/
theorem C7_filter_composition_scenarios :
    filter_contacts { contact_type := [(("administrative")).toList] }
        [((("siteA")).toList,
          [[((("ContactType")).toList, some (("administrative")).toList),
            ((("Email")).toList, some (("a@x.org")).toList)],
           [((("ContactType")).toList, some (("security")).toList),
            ((("Email")).toList, some (("b@x.org")).toList)]])]
      = .ok [((("siteA")).toList,
          [[((("ContactType")).toList, some (("administrative")).toList),
            ((("Email")).toList, some (("a@x.org")).toList)]])]
    ∧ filter_contacts { contact_type := [(("miscellaneous")).toList] }
        [((("siteA")).toList,
          [[((("ContactType")).toList, some (("administrative")).toList),
            ((("Email")).toList, some (("a@x.org")).toList)],
           [((("ContactType")).toList, some (("security")).toList),
            ((("Email")).toList, some (("b@x.org")).toList)]])]
      = .ok [] := by
  decide

/-- C10: filtering a result set in which a surviving entity has a contact
record without an Email field, with a non-empty contact-email set, raises
an unhandled KeyError instead of dropping the contact or returning a
result set. -/
theorem C10_missing_email_raises_keyerror :
    filter_contacts
        { contact_type := [(("all")).toList],
          contact_emails := some [(("x@y.org")).toList] }
        [((("siteA")).toList,
          [[((("ContactType")).toList, some (("administrative")).toList)]])]
      = .error (.keyError (("Email")).toList) := by
  decide

/-- C9: in the credential resolution, a set X509_USER_PROXY environment
value is used for the certificate path and the key path in place of the
privilege-dependent defaults, unless an explicit caller-supplied path is
given for that slot, in which case the explicit path wins; the precedence
holds for the certificate and the key independently (the resolved cert
slot depends only on the cert argument, the key slot only on the key
argument). -/
theorem C9_credential_override_precedence (euid : Nat) (envp getpass_result : PyString)
    (args : Args) :
    ∃ s, get_auth_session euid (some envp) (fun _ => true) getpass_result args = .ok s
      ∧ s.cert_file = (if truthyStr args.cert then args.cert.getD [] else envp)
      ∧ s.key_file = (if truthyStr args.key then args.key.getD [] else envp) := by
  refine ⟨{ cert_file := if truthyStr args.cert then args.cert.getD [] else envp,
            key_file := if truthyStr args.key then args.key.getD [] else envp,
            cert_reqs := (("CERT_REQUIRED")).toList,
            key_password := getpass_result }, ?_, rfl, rfl⟩
  simp [get_auth_session]
  rfl

/-- C2: the code bug at the failing input.  With a prior no_proxy value of
"example.com", a VO-map fetch whose HTTP request raises a
ConnectionError, and likewise a contact fetch whose request raises (here
with the nested errno-22 signature, re-raised as
IncorrectPasswordError), both functions terminate by exception with the
no_proxy environment variable still set to ".opensciencegrid.org" — the
prior value is not restored, contradicting the claim that every exit path
restores it. -/
theorem C2_proxy_env_leak_on_exception :
    (get_vo_map_run (some (("example.com")).toList) true (.error (.exn []))
        (.connError [] none) (fun _ => .error (.exn [])) {}).1
      = some ((".opensciencegrid.org")).toList
    ∧ (get_contacts_run (some (("example.com")).toList) true (.error (.exn []))
        (.ok []) (.connError [] (some 22)) (fun _ => .error (.exn [])) {}
        (("rg")).toList (("Resource")).toList).1
      = some ((".opensciencegrid.org")).toList
    ∧ some ((".opensciencegrid.org")).toList ≠ some ((("example.com")).toList) := by
  refine ⟨rfl, rfl, ?_⟩
  decide

/-- C3: the code bug at the failing input.  For a contact fetch whose
response has the non-success status 500, the source evaluates
response.status_code (and response.text) to format its diagnostic, but a
urllib3 response has neither attribute, so the fetch raises
AttributeError with nothing logged instead of logging the diagnostic and
returning None.  The second conjunct shows the root-tag half of the
claim: a response whose parsed root tag is "Foo" instead of
"ResourceSummary" is logged and answered with the None sentinel, without
an exception. -/
theorem C3_nonsuccess_status_raises_attribute_error :
    (get_contacts_run none true (.error (.exn [])) (.ok [])
        (.success { status := 500, data := (("body")).toList })
        (fun _ => .error (.exn [])) {} (("rg")).toList (("Resource")).toList)
      = (none, [], .error (.attributeError ("status_code")))
    ∧ (get_contacts_run none true (.error (.exn [])) (.ok [])
        (.success { status := 200, data := (("<Foo/>")).toList })
        (fun _ => .ok (.mk (("Foo")).toList none [])) {}
        (("rg")).toList (("Resource")).toList)
      = (none, [(("MyOSG returned invalid XML with root tag Foo")).toList], .ok none) := by
  exact ⟨rfl, rfl⟩

/-- If the VO walk completes without an exception and some child is not a
VO element, it returned the exit code 1 after printing one diagnostic. -/
theorem vo_walk_bad_tag (rootTag : PyString) (acc : ResultSet) (l : List Element)
    (logs : List PyString) (out : VoContactsOut)
    (hbad : ∃ c ∈ l, c.tag ≠ ("VO").toList)
    (hrun : vo_walk_children rootTag acc l = (logs, .ok out)) :
    out = .exitCode 1
      ∧ logs = [(("MyOSG returned a non-VO (")).toList ++ rootTag
          ++ ((") inside summary.")).toList] := by
  induction l generalizing acc with
  | nil => simp at hbad
  | cons child rest ih =>
    rw [vo_walk_children] at hrun
    by_cases h : child.tag = ("VO").toList
    · rw [if_neg (by simp [h])] at hrun
      obtain ⟨c, hc, hct⟩ := hbad
      rcases List.mem_cons.mp hc with hceq | hcrest
      · exact absurd (hceq ▸ h) hct
      · cases hgct : gatherContactTypes child.children with
        | error e => rw [hgct] at hrun; simp at hrun
        | ok info =>
          rw [hgct] at hrun
          exact ih _ ⟨c, hcrest, hct⟩ hrun
    · rw [if_pos h] at hrun
      obtain ⟨h1, h2⟩ := Prod.mk.injEq .. ▸ hrun
      refine ⟨?_, h1.symm⟩
      cases h2; rfl

/-- If the resource-group walk completes without an exception and some
child is not a ResourceGroup element, it returned a pair of fresh empty
dicts after printing one diagnostic. -/
theorem rg_walk_bad_tag (rootTag : PyString) (accs : ResultSet × ResultSet)
    (l : List Element) (logs : List PyString) (out : ResultSet × ResultSet)
    (hbad : ∃ c ∈ l, c.tag ≠ ("ResourceGroup").toList)
    (hrun : rg_walk_children rootTag accs l = (logs, .ok out)) :
    out = ([], [])
      ∧ logs = [(("MyOSG returned a non-resource group (")).toList ++ rootTag
          ++ ((") inside summary.")).toList] := by
  induction l generalizing accs with
  | nil => simp at hbad
  | cons rg rest ih =>
    rw [rg_walk_children] at hrun
    by_cases h : rg.tag = ("ResourceGroup").toList
    · rw [if_neg (by simp [h])] at hrun
      obtain ⟨c, hc, hct⟩ := hbad
      rcases List.mem_cons.mp hc with hceq | hcrest
      · exact absurd (hceq ▸ h) hct
      · cases hproc : process_rg_children accs rg.children with
        | error e => rw [hproc] at hrun; simp at hrun
        | ok accs' =>
          rw [hproc] at hrun
          exact ih _ ⟨c, hcrest, hct⟩ hrun
    · rw [if_pos h] at hrun
      obtain ⟨h1, h2⟩ := Prod.mk.injEq .. ▸ hrun
      refine ⟨?_, h1.symm⟩
      cases h2; rfl

/-- C4, counterexample to the claim as stated: on a VO summary whose child
has the unexpected tag Huh, the per-VO walker returns the integer exit
code 1 — not an empty mapping, which is a different value. -/
theorem C4_counterexample_vo_walker_returns_exit_code :
    get_vo_contacts_walk (.mk (("VOSummary")).toList none [.mk (("Huh")).toList none []])
      = ([(("MyOSG returned a non-VO (VOSummary) inside summary.")).toList],
         .ok (.exitCode 1))
    ∧ VoContactsOut.exitCode 1 ≠ .results [] := by
  exact ⟨rfl, by decide⟩

/-- C4 amended: a walk that completes after encountering an unexpected
child tag logs one diagnostic and aborts, the per-VO walker returning the
integer exit code 1 (not a mapping) and the per-resource-group walker
returning a pair of empty mappings; neither raises there. -/
theorem C4_walkers_abort_on_unexpected_tag (vroot rroot : Element)
    (vlogs rlogs : List PyString) (vout : VoContactsOut) (rout : ResultSet × ResultSet)
    (hv : get_vo_contacts_walk vroot = (vlogs, .ok vout))
    (hvbad : ∃ c ∈ vroot.children, c.tag ≠ ("VO").toList)
    (hr : get_resource_contacts_walk rroot = (rlogs, .ok rout))
    (hrbad : ∃ c ∈ rroot.children, c.tag ≠ ("ResourceGroup").toList) :
    vout = .exitCode 1 ∧ rout = ([], [])
      ∧ vlogs = [(("MyOSG returned a non-VO (")).toList ++ vroot.tag
          ++ ((") inside summary.")).toList]
      ∧ rlogs = [(("MyOSG returned a non-resource group (")).toList ++ rroot.tag
          ++ ((") inside summary.")).toList] := by
  obtain ⟨hv1, hv2⟩ := vo_walk_bad_tag _ _ _ _ _ hvbad hv
  obtain ⟨hr1, hr2⟩ := rg_walk_bad_tag _ _ _ _ _ hrbad hr
  exact ⟨hv1, hr1, hv2, hr2⟩

/-- C4 witness: the amended theorem applied to concrete summaries whose
single child carries the unexpected tag Huh. -/
theorem C4_walkers_abort_on_unexpected_tag_witness :
    VoContactsOut.exitCode 1 = .exitCode 1
      ∧ (([], []) : ResultSet × ResultSet) = ([], [])
      ∧ [(("MyOSG returned a non-VO (")).toList
          ++ (Element.mk (("VOSummary")).toList none [.mk (("Huh")).toList none []]).tag
          ++ ((") inside summary.")).toList]
        = [(("MyOSG returned a non-VO (")).toList
            ++ (Element.mk (("VOSummary")).toList none [.mk (("Huh")).toList none []]).tag
            ++ ((") inside summary.")).toList]
      ∧ [(("MyOSG returned a non-resource group (")).toList
          ++ (Element.mk (("ResourceSummary")).toList none
              [.mk (("Huh")).toList none []]).tag
          ++ ((") inside summary.")).toList]
        = [(("MyOSG returned a non-resource group (")).toList
            ++ (Element.mk (("ResourceSummary")).toList none
                [.mk (("Huh")).toList none []]).tag
            ++ ((") inside summary.")).toList] := by
  exact C4_walkers_abort_on_unexpected_tag
    (.mk (("VOSummary")).toList none [.mk (("Huh")).toList none []])
    (.mk (("ResourceSummary")).toList none [.mk (("Huh")).toList none []])
    _ _ _ _ rfl ⟨.mk (("Huh")).toList none [], by simp [Element.children], by decide⟩
    rfl ⟨.mk (("Huh")).toList none [], by simp [Element.children], by decide⟩

/-- Lookup is unchanged by an update under a different key. -/
theorem dictGet?_dictSet_ne {α : Type} (d : PyDict α) (k' k : PyString) (v : α)
    (h : k' ≠ k) : dictGet? (dictSet d k' v) k = dictGet? d k := by
  induction d with
  | nil => simp [dictSet, dictGet?, h]
  | cons p rest ih =>
    obtain ⟨pk, pv⟩ := p
    by_cases hp : pk = k'
    · subst hp
      simp [dictSet, dictGet?, h]
    · simp [dictSet, hp, dictGet?, ih]

/-- Copying field elements whose tags differ from a key leaves that key's
binding unchanged. -/
theorem dictGet?_foldl_fields (ccs : List Element) (r : ContactRecord) (k : PyString)
    (h : ∀ cc ∈ ccs, cc.tag ≠ k) :
    dictGet? (ccs.foldl (fun r cc => dictSet r cc.tag cc.text) r) k = dictGet? r k := by
  induction ccs generalizing r with
  | nil => rfl
  | cons cc rest ih =>
    rw [List.foldl_cons, ih _ (fun x hx => h x (List.mem_cons_of_mem _ hx)),
      dictGet?_dictSet_ne _ _ _ _ (h cc (List.mem_cons_self _ _))]

/-- The specification record of a contact whose fields do not shadow the
classification carries exactly the given classification. -/
theorem dictGet?_specContactRecord (ct : Option PyString) (con : Element)
    (h : ∀ cc ∈ con.children, cc.tag ≠ ("ContactType").toList) :
    dictGet? (specContactRecord ct con) (("ContactType").toList) = some ct := by
  unfold specContactRecord
  rw [dictGet?_foldl_fields _ _ _ h]
  simp [dictGet?]

/-- With an assigned classification, the Contacts loop emits one record
per child, in order, without raising. -/
theorem emitContacts_some (s : PyString) (l : List Element) :
    emitContacts (some s) l = .ok (l.map (buildContactRecord s)) := by
  induction l with
  | nil => rfl
  | cons con rest ih =>
    simp only [emitContacts, ih, List.map_cons]
    rfl

/-- The normalizer walk agrees with the specification walk on well-shaped
sibling sequences, for any current classification consistent with the
seen flag. -/
theorem get_contact_list_info_go_spec (l : List Element) (cur : Option PyString)
    (h : wellShapedFrom cur.isSome l = true) :
    get_contact_list_info_go cur l = .ok (contactRecordsFrom cur l) := by
  induction l generalizing cur with
  | nil => rfl
  | cons e rest ih =>
    rw [wellShapedFrom] at h
    by_cases hcl : isClassEl e = true
    · rw [if_pos hcl] at h
      obtain ⟨htext, hrest⟩ := Bool.and_eq_true_iff.mp h
      obtain ⟨t, ht⟩ := Option.isSome_iff_exists.mp htext
      have hnc : ¬(e.tag = ("Contacts").toList) := by
        rcases Bool.or_eq_true_iff.mp hcl with h1 | h1 <;>
          · have h2 := of_decide_eq_true h1
            rw [h2]
            decide
      have hupd : updClass cur e = some (pyLower t) := by
        simp [updClass, hcl, ht]
      have step := ih (some (pyLower t)) (by simpa using hrest)
      simp only [get_contact_list_info_go, contactRecordsFrom, if_pos hcl,
        if_neg hnc, ht, lowerOrRaise, ok_bind, pure_eq_ok, hupd, step,
        List.nil_append]
    · rw [if_neg hcl] at h
      by_cases hco : e.tag = ("Contacts").toList
      · rw [if_pos hco] at h
        obtain ⟨hseen', hrest⟩ := Bool.and_eq_true_iff.mp h
        obtain ⟨hseen, _hfields⟩ := Bool.and_eq_true_iff.mp hseen'
        obtain ⟨s, hs⟩ := Option.isSome_iff_exists.mp hseen
        subst hs
        have hupd : updClass (some s) e = some s := by simp [updClass, hcl]
        have step := ih (some s) (by simpa using hrest)
        have hmap : List.map (specContactRecord (some s)) e.children
            = List.map (buildContactRecord s) e.children := rfl
        simp only [get_contact_list_info_go, contactRecordsFrom, if_neg hcl,
          if_pos hco, emitContacts_some, ok_bind, pure_eq_ok, hupd, step,
          hmap]
      · rw [if_neg hco] at h
        have hupd : updClass cur e = cur := by simp [updClass, hcl]
        have step := ih cur h
        simp only [get_contact_list_info_go, contactRecordsFrom, if_neg hcl,
          if_neg hco, ok_bind, pure_eq_ok, hupd, step, List.nil_append]

/-- The recursive specification walk computes the enum/nearest-preceding
form, for any starting classification. -/
theorem contactRecordsFrom_enum (l : List Element) (cur : Option PyString) :
    contactRecordsFrom cur l
      = l.enum.flatMap (fun p =>
          if p.2.tag = ("Contacts").toList then
            p.2.children.map (specContactRecord ((l.take p.1).foldl updClass cur))
          else []) := by
  induction l generalizing cur with
  | nil => rfl
  | cons e rest ih =>
    rw [contactRecordsFrom, List.enum_cons', List.flatMap_cons, List.flatMap_map]
    congr 1
    · by_cases hco : e.tag = ("Contacts").toList
      · simp only [if_pos hco, List.take_zero, List.foldl_nil]
        have hcl : isClassEl e = false := by
          unfold isClassEl
          rw [hco]
          decide
        simp [updClass, hcl]
      · have h2 : ((0, e) : Nat × Element).2 = e := rfl
        rw [h2, if_neg hco, if_neg hco]
    · rw [ih (updClass cur e)]
      apply List.flatMap_congr
      intro p _
      simp [Prod.map, List.take_succ_cons, List.foldl_cons]

/-- Well-shapedness gives, for every Contacts container, that no contact
field element is itself tagged ContactType. -/
theorem wellShapedFrom_fields (l : List Element) (seen : Bool)
    (h : wellShapedFrom seen l = true) :
    ∀ e ∈ l, e.tag = ("Contacts").toList →
      ∀ con ∈ e.children, ∀ cc ∈ con.children, cc.tag ≠ ("ContactType").toList := by
  induction l generalizing seen with
  | nil =>
    intro e he
    simp at he
  | cons x rest ih =>
    rw [wellShapedFrom] at h
    intro e he hco con hcon cc hcc
    rcases List.mem_cons.mp he with heq | hmem
    · subst heq
      have hcl : ¬(isClassEl e = true) := by
        unfold isClassEl
        rw [hco]
        decide
      rw [if_neg hcl, if_pos hco] at h
      obtain ⟨h1, _⟩ := Bool.and_eq_true_iff.mp h
      obtain ⟨_, hfields⟩ := Bool.and_eq_true_iff.mp h1
      have h3 := List.all_eq_true.mp (List.all_eq_true.mp hfields con hcon) cc hcc
      exact of_decide_eq_true h3
    · by_cases hclx : isClassEl x = true
      · rw [if_pos hclx] at h
        exact ih _ (Bool.and_eq_true_iff.mp h).2 e hmem hco con hcon cc hcc
      · rw [if_neg hclx] at h
        by_cases hcox : x.tag = ("Contacts").toList
        · rw [if_pos hcox] at h
          exact ih _ (Bool.and_eq_true_iff.mp h).2 e hmem hco con hcon cc hcc
        · rw [if_neg hcox] at h
          exact ih _ h e hmem hco con hcon cc hcc

/-- C6: on every contact list in Shape A or Shape B, the normalizer raises
nothing and emits exactly the records the specification prescribes — in
document order, one record per contact element of each Contacts container,
each seeded with the lower-cased text of the nearest preceding
classification element — and consequently every emitted record's
ContactType field equals that classification. -/
theorem C6_contact_normalizer_spec (cl : Element)
    (h : wellShaped cl.children = true) :
    get_contact_list_info cl = .ok (contactRecordsSpec cl.children)
      ∧ (contactRecordsSpec cl.children).map
          (fun r => dictGet? r (("ContactType").toList))
        = cl.children.enum.flatMap (fun p =>
            if p.2.tag = ("Contacts").toList then
              p.2.children.map (fun _ => some (nearestClassification cl.children p.1))
            else []) := by
  have hbridge : contactRecordsSpec cl.children = contactRecordsFrom none cl.children := by
    rw [contactRecordsFrom_enum]
    rfl
  constructor
  · rw [hbridge]
    exact get_contact_list_info_go_spec cl.children none h
  · rw [contactRecordsSpec, List.map_flatMap]
    apply List.flatMap_congr
    intro p hp
    by_cases hco : p.2.tag = ("Contacts").toList
    · rw [if_pos hco, if_pos hco, List.map_map]
      apply List.map_congr_left
      intro con hcon
      have hmem : p.2 ∈ cl.children := List.getElem?_mem (List.mem_enum_iff_getElem?.mp hp)
      exact dictGet?_specContactRecord _ con
        (wellShapedFrom_fields cl.children false h p.2 hmem hco con hcon)
    · rw [if_neg hco, if_neg hco]
      rfl

/-- C6 witness: the normalizer theorem applied to the concrete contact
list above. -/
theorem C6_contact_normalizer_spec_witness :
    wellShaped exampleContactList.children = true
      ∧ (get_contact_list_info exampleContactList
            = .ok (contactRecordsSpec exampleContactList.children)
        ∧ (contactRecordsSpec exampleContactList.children).map
            (fun r => dictGet? r (("ContactType").toList))
          = exampleContactList.children.enum.flatMap (fun p =>
              if p.2.tag = ("Contacts").toList then
                p.2.children.map
                  (fun _ => some (nearestClassification exampleContactList.children p.1))
              else [])) :=
  ⟨by decide, C6_contact_normalizer_spec exampleContactList (by decide)⟩

/-- The deletion loop leaves a leading entry alone when no key it could
delete equals that entry's key. -/
theorem keyFilterLoop_cons_keep (pat k : PyString) (v : List ContactRecord)
    (t : ResultSet) (keys : List PyString)
    (hk : ∀ j ∈ keys, (!fnmatch j pat && !pySubstr pat j) = true → j ≠ k) :
    keyFilterLoop pat keys ((k, v) :: t) = (k, v) :: keyFilterLoop pat keys t := by
  induction keys generalizing t with
  | nil => rfl
  | cons j rest ih =>
    rw [keyFilterLoop, keyFilterLoop]
    by_cases hb : (!fnmatch j pat && !pySubstr pat j) = true
    · rw [if_pos hb, if_pos hb]
      have hjk : j ≠ k := hk j (List.mem_cons_self _ _) hb
      rw [show dictDel ((k, v) :: t) j = (k, v) :: dictDel t j from by
        rw [dictDel, if_neg (fun hh => hjk hh.symm)]]
      exact ih _ (fun a ha hba => hk a (List.mem_cons_of_mem _ ha) hba)
    · rw [if_neg hb, if_neg hb]
      exact ih _ (fun a ha hba => hk a (List.mem_cons_of_mem _ ha) hba)

/-- The key-filter stage keeps exactly the entries whose key glob-matches
the pattern or contains it as a substring. -/
theorem keyFilterStage_eq_filter (pat : PyString) (results : ResultSet) :
    keyFilterStage pat results
      = results.filter (fun e => fnmatch e.1 pat || pySubstr pat e.1) := by
  unfold keyFilterStage
  induction results with
  | nil => rfl
  | cons p t ih =>
    obtain ⟨k, v⟩ := p
    rw [List.map_cons, keyFilterLoop, List.filter_cons]
    by_cases hb : (!fnmatch k pat && !pySubstr pat k) = true
    · rw [if_pos hb]
      rw [show dictDel ((k, v) :: t) k = t from by rw [dictDel, if_pos rfl]]
      have hcond : (fnmatch k pat || pySubstr pat k) = false := by
        revert hb
        cases fnmatch k pat <;> cases pySubstr pat k <;> simp
      rw [hcond]
      simpa using ih
    · rw [if_neg hb]
      have hk : ∀ j ∈ t.map Prod.fst, (!fnmatch j pat && !pySubstr pat j) = true → j ≠ k :=
        fun j _ hbj heq => hb (heq ▸ hbj)
      rw [keyFilterLoop_cons_keep pat k v t _ hk]
      have hcond : (fnmatch k pat || pySubstr pat k) = true := by
        revert hb
        cases fnmatch k pat <;> cases pySubstr pat k <;> simp
      rw [hcond, ih]
      simp

/-- C8: when both a name filter and an FQDN filter are supplied, only the
name filter is applied (the result equals the run with the FQDN filter
absent), and the key-filter stage drops exactly those entity keys that
neither glob-match the pattern nor contain it as a substring. -/
theorem C8_name_filter_precedence (args : Args) (p q : PyString) (results : ResultSet)
    (hname : args.name_filter = some p) (hp : p ≠ [])
    (_hfqdn : args.fqdn_filter = some q) :
    filter_contacts args results
        = filter_contacts { args with fqdn_filter := none } results
      ∧ keyFilterStage p results
        = results.filter (fun e => fnmatch e.1 p || pySubstr p e.1) := by
  refine ⟨?_, keyFilterStage_eq_filter p results⟩
  have ht : truthyStr args.name_filter = true := by
    rw [hname]
    simpa [truthyStr] using hp
  simp [filter_contacts, ht]

/-- C8 witness: the precedence theorem applied to the concrete arguments
and result set. -/
theorem C8_name_filter_precedence_witness :
    exampleBothFilters.name_filter = some (("site*")).toList
      ∧ (("site*")).toList ≠ ([] : PyString)
      ∧ exampleBothFilters.fqdn_filter = some (("*.org")).toList
      ∧ (filter_contacts exampleBothFilters exampleTwoSites
            = filter_contacts { exampleBothFilters with fqdn_filter := none } exampleTwoSites
        ∧ keyFilterStage (("site*")).toList exampleTwoSites
            = exampleTwoSites.filter
                (fun e => fnmatch e.1 (("site*")).toList || pySubstr (("site*")).toList e.1)) :=
  ⟨rfl, by decide, rfl,
    C8_name_filter_precedence exampleBothFilters _ _ exampleTwoSites rfl (by decide) rfl⟩

/-- C5, counterexample to the claim as stated: the service table holds 7
names, not 6, so the configuration error for the unknown service foo123
lists 7 names; moreover with no alternate host the Query Builder returns
the URL unchanged and raises no error at all. -/
theorem C5_counterexample_seven_names :
    (SERVICE_IDS.map Prod.fst).length = 7
      ∧ ¬((SERVICE_IDS.map Prod.fst).length = 6)
      ∧ mangle_url (.ok []) exampleBaseUrl
          { host := some (("example.com")).toList,
            provides_service := some (("foo123")).toList }
        = .error (.exn (("Requested service foo123 not known; known service names: ce, srmv2, gridftp, xrootd, perfsonar-bandwidth, perfsonar-latency, gums")).toList)
      ∧ mangle_url (.ok []) exampleBaseUrl { provides_service := some (("foo123")).toList }
        = .ok exampleBaseUrl := by
  decide

/-- C5 amended: whenever the arguments carry an alternate host (a truthy
one) and the unknown service name foo123, the Query Builder raises a
configuration error naming foo123 and listing exactly the 7 known service
names of the service table; without an alternate host it returns the URL
unchanged and raises nothing. -/
theorem C5_unknown_service_error (args : Args) (url : PyString) (vm : Except PyErr VoMap)
    (hsvc : args.provides_service = some (("foo123")).toList) :
    (∀ h, args.host = some h → h ≠ [] →
        mangle_url vm url args
          = .error (.exn ((("Requested service foo123 not known; known service names: ")).toList
              ++ joinCommaSpace (SERVICE_IDS.map Prod.fst))))
      ∧ (SERVICE_IDS.map Prod.fst).length = 7
      ∧ (truthyStr args.host = false → mangle_url vm url args = .ok url) := by
  refine ⟨?_, by decide, ?_⟩
  · intro h hh hne
    have ht : truthyStr args.host = true := by
      rw [hh]
      simpa [truthyStr] using hne
    have hres : resolveServices (pySplit ',' (("foo123")).toList)
        = .error (.exn ((("Requested service foo123 not known; known service names: ")).toList
            ++ joinCommaSpace (SERVICE_IDS.map Prod.fst))) := by decide
    rw [mangle_url, if_neg (by rw [ht]; decide), hsvc]
    rw [show truthyStr (some (("foo123")).toList) = true from rfl, if_pos rfl]
    rw [show (some (("foo123")).toList).getD [] = (("foo123")).toList from rfl, hres,
      error_bind]
  · intro hf
    rw [mangle_url, if_pos (by rw [hf]; decide)]

/-- C5 witness: the amended theorem applied to the concrete arguments. -/
theorem C5_unknown_service_error_witness :
    exampleUnknownService.provides_service = some (("foo123")).toList
      ∧ ((∀ h, exampleUnknownService.host = some h → h ≠ [] →
            mangle_url (.ok []) exampleBaseUrl exampleUnknownService
              = .error (.exn ((("Requested service foo123 not known; known service names: ")).toList
                  ++ joinCommaSpace (SERVICE_IDS.map Prod.fst))))
        ∧ (SERVICE_IDS.map Prod.fst).length = 7
        ∧ (truthyStr exampleUnknownService.host = false →
            mangle_url (.ok []) exampleBaseUrl exampleUnknownService = .ok exampleBaseUrl)) :=
  ⟨rfl, C5_unknown_service_error exampleUnknownService exampleBaseUrl (.ok []) rfl⟩

/-! Lemmas on the percent-coding round-trip, used for the Query Builder
claim. -/

/-- The two hex digits emitted for a byte decode back to its value. -/
theorem hexDigitVal?_hexDigitUpper : ∀ n, n < 16 → hexDigitVal? (hexDigitUpper n) = some n := by
  decide

/-- A safe character is not a plus sign. -/
theorem alwaysSafe_ne_plus {c : Char} (h : alwaysSafe c = true) : c ≠ '+' := by
  intro he
  rw [he] at h
  exact absurd h (by decide)

/-- A safe character is not a percent sign. -/
theorem alwaysSafe_ne_pct {c : Char} (h : alwaysSafe c = true) : c ≠ '%' := by
  intro he
  rw [he] at h
  exact absurd h (by decide)

/-- Hex digits emitted by the quoter are never a plus sign. -/
theorem hexDigitUpper_ne_plus (n : Nat) : hexDigitUpper n ≠ '+' := by
  by_cases h : n < 16
  · revert h
    revert n
    decide
  · unfold hexDigitUpper
    rw [List.getD_eq_default _ _ (by simpa using Nat.le_of_not_lt h)]
    decide

/-- One unquoting step on a character other than a percent sign. -/
theorem pyUnquoteF_cons_ne (fuel : Nat) (c : Char) (l : PyString) (hc : ¬(c = '%')) :
    pyUnquoteF (fuel + 1) (c :: l) = c :: pyUnquoteF fuel l := by
  cases l with
  | nil => simp [pyUnquoteF, hc]
  | cons c1 l1 =>
    cases l1 with
    | nil => simp [pyUnquoteF, hc]
    | cons c2 l2 => simp [pyUnquoteF, hc]

/-- Unquoting undoes quoting followed by plus-to-space replacement, on
ASCII strings, for any sufficient fuel. -/
theorem pyUnquoteF_plusToSpace_quote (s : PyString) (hs : asciiStr s = true) :
    ∀ fuel, (plusToSpace (pyQuotePlus s)).length ≤ fuel →
      pyUnquoteF fuel (plusToSpace (pyQuotePlus s)) = s := by
  induction s with
  | nil =>
    intro fuel _
    cases fuel <;> rfl
  | cons c rest ih =>
    intro fuel hfuel
    have hs' := hs
    rw [asciiStr, List.all_cons] at hs'
    obtain ⟨hc, hrest'⟩ := Bool.and_eq_true_iff.mp hs'
    have hsplit : plusToSpace (pyQuotePlus (c :: rest))
        = plusToSpace (quotePlusChar c) ++ plusToSpace (pyQuotePlus rest) := by
      simp [pyQuotePlus, plusToSpace]
    rw [hsplit] at hfuel ⊢
    by_cases hsafe : alwaysSafe c = true
    · have hblock : plusToSpace (quotePlusChar c) = [c] := by
        unfold quotePlusChar plusToSpace
        rw [if_pos hsafe]
        simp [alwaysSafe_ne_plus hsafe]
      rw [hblock] at hfuel ⊢
      cases fuel with
      | zero => simp at hfuel
      | succ f =>
        rw [List.singleton_append, pyUnquoteF_cons_ne f c _ (alwaysSafe_ne_pct hsafe)]
        rw [ih hrest' f (by simpa using Nat.le_of_succ_le_succ (by simpa using hfuel))]
    · by_cases hspace : c = ' '
      · subst hspace
        have hblock : plusToSpace (quotePlusChar ' ') = [' '] := by decide
        rw [hblock] at hfuel ⊢
        cases fuel with
        | zero => simp at hfuel
        | succ f =>
          rw [List.singleton_append, pyUnquoteF_cons_ne f _ _ (by decide)]
          rw [ih hrest' f (by simpa using Nat.le_of_succ_le_succ (by simpa using hfuel))]
      · have hlt : c.toNat < 128 := by simpa [asciiChar] using hc
        have hdiv : c.toNat / 16 < 16 := by
          rw [Nat.div_lt_iff_lt_mul (by omega)]
          omega
        have hblock : plusToSpace (quotePlusChar c)
            = ['%', hexDigitUpper (c.toNat / 16 % 16), hexDigitUpper (c.toNat % 16)] := by
          unfold quotePlusChar plusToSpace
          rw [if_neg hsafe, if_neg hspace]
          simp [hexDigitUpper_ne_plus]
        rw [hblock] at hfuel ⊢
        cases fuel with
        | zero => simp at hfuel
        | succ f =>
          have h1 : hexDigitVal? (hexDigitUpper (c.toNat / 16 % 16)) = some (c.toNat / 16 % 16) :=
            hexDigitVal?_hexDigitUpper _ (Nat.mod_lt _ (by omega))
          have h2 : hexDigitVal? (hexDigitUpper (c.toNat % 16)) = some (c.toNat % 16) :=
            hexDigitVal?_hexDigitUpper _ (Nat.mod_lt _ (by omega))
          have hval : 16 * (c.toNat / 16 % 16) + c.toNat % 16 = c.toNat := by
            rw [Nat.mod_eq_of_lt hdiv]
            exact Nat.div_add_mod _ _
          simp only [List.cons_append, List.nil_append, pyUnquoteF, h1, h2, hval,
            Char.ofNat_toNat]
          rw [ih hrest' f ?_]
          have := hfuel
          simp only [List.length_cons, List.length_append] at this ⊢
          omega

/-- Unquoting undoes quoting followed by plus-to-space replacement on
ASCII strings. -/
theorem pyUnquote_plusToSpace_quote (s : PyString) (hs : asciiStr s = true) :
    pyUnquote (plusToSpace (pyQuotePlus s)) = s :=
  pyUnquoteF_plusToSpace_quote s hs _ (Nat.le_refl _)

/-- Characters differ when their code points differ. -/
theorem char_ne_of_toNat_ne {c d : Char} (h : c.toNat ≠ d.toNat) : c ≠ d :=
  fun he => h (he ▸ rfl)

/-- The code-point ranges of the safe characters. -/
theorem alwaysSafe_ranges {c : Char} (h : alwaysSafe c = true) :
    (65 ≤ c.toNat ∧ c.toNat ≤ 90) ∨ (97 ≤ c.toNat ∧ c.toNat ≤ 122)
      ∨ (48 ≤ c.toNat ∧ c.toNat ≤ 57) ∨ c.toNat = 95 ∨ c.toNat = 46
      ∨ c.toNat = 45 ∨ c.toNat = 126 := by
  unfold alwaysSafe Char.isAlphanum Char.isAlpha Char.isUpper Char.isLower
    Char.isDigit at h
  have hup : ∀ (a b : UInt32), (decide (c.val ≥ a) && decide (c.val ≤ b)) = true →
      a.toNat ≤ c.toNat ∧ c.toNat ≤ b.toNat := by
    intro a b hh
    obtain ⟨h1, h2⟩ := Bool.and_eq_true_iff.mp hh
    have g1 := of_decide_eq_true h1
    have g2 := of_decide_eq_true h2
    rw [ge_iff_le, UInt32.le_def, BitVec.le_def] at g1
    rw [UInt32.le_def, BitVec.le_def] at g2
    exact ⟨g1, g2⟩
  rcases Bool.or_eq_true_iff.mp h with h | h
  · rcases Bool.or_eq_true_iff.mp h with h | h
    · rcases Bool.or_eq_true_iff.mp h with h | h
      · rcases Bool.or_eq_true_iff.mp h with h | h
        · rcases Bool.or_eq_true_iff.mp h with h | h
          · rcases Bool.or_eq_true_iff.mp h with h | h
            · exact Or.inl (hup 65 90 h)
            · exact Or.inr (Or.inl (hup 97 122 h))
          · exact Or.inr (Or.inr (Or.inl (hup 48 57 h)))
        · have g := of_decide_eq_true h
          subst g
          exact Or.inr (Or.inr (Or.inr (Or.inl rfl)))
      · have g := of_decide_eq_true h
        subst g
        exact Or.inr (Or.inr (Or.inr (Or.inr (Or.inl rfl))))
    · have g := of_decide_eq_true h
      subst g
      exact Or.inr (Or.inr (Or.inr (Or.inr (Or.inr (Or.inl rfl)))))
  · have g := of_decide_eq_true h
    subst g
    exact Or.inr (Or.inr (Or.inr (Or.inr (Or.inr (Or.inr rfl)))))

/-- A safe character is a good query character and is neither an
ampersand nor an equals sign. -/
theorem alwaysSafe_goodQuery {c : Char} (h : alwaysSafe c = true) :
    goodQueryChar c = true ∧ c ≠ '&' ∧ c ≠ '=' := by
  have hr := alwaysSafe_ranges h
  have hne : c.toNat ≠ 63 ∧ c.toNat ≠ 35 ∧ c.toNat ≠ 9 ∧ c.toNat ≠ 13
      ∧ c.toNat ≠ 10 ∧ c.toNat < 128 ∧ c.toNat ≠ 38 ∧ c.toNat ≠ 61 := by
    rcases hr with ⟨a, b⟩ | ⟨a, b⟩ | ⟨a, b⟩ | a | a | a | a <;>
      exact ⟨by omega, by omega, by omega, by omega, by omega, by omega, by omega, by omega⟩
  obtain ⟨h63, h35, h9, h13, h10, h128, h38, h61⟩ := hne
  refine ⟨?_, char_ne_of_toNat_ne h38, char_ne_of_toNat_ne h61⟩
  unfold goodQueryChar asciiChar isUnsafeUrlByte
  simp only [Bool.and_eq_true, Bool.not_eq_true', Bool.or_eq_false_iff,
    decide_eq_false_iff_not, decide_eq_true_eq]
  and_intros <;>
    first
      | exact h128
      | exact char_ne_of_toNat_ne h63
      | exact char_ne_of_toNat_ne h35
      | exact char_ne_of_toNat_ne h9
      | exact char_ne_of_toNat_ne h13
      | exact char_ne_of_toNat_ne h10

/-- Every character of a quoted block is a good query character and is
neither an ampersand nor an equals sign. -/
theorem quotePlusChar_good {c d : Char} (h : d ∈ quotePlusChar c) :
    goodQueryChar d = true ∧ d ≠ '&' ∧ d ≠ '=' := by
  have hhex : ∀ n, n < 16 →
      goodQueryChar (hexDigitUpper n) = true
        ∧ hexDigitUpper n ≠ '&' ∧ hexDigitUpper n ≠ '=' := by decide
  unfold quotePlusChar at h
  by_cases h1 : alwaysSafe c = true
  · rw [if_pos h1] at h
    rw [List.mem_singleton.mp h]
    exact alwaysSafe_goodQuery h1
  · rw [if_neg h1] at h
    by_cases h2 : c = ' '
    · rw [if_pos h2] at h
      rw [List.mem_singleton.mp h]
      exact ⟨by decide, by decide, by decide⟩
    · rw [if_neg h2] at h
      rcases List.mem_cons.mp h with h3 | h3
      · subst h3
        exact ⟨by decide, by decide, by decide⟩
      rcases List.mem_cons.mp h3 with h4 | h4
      · subst h4
        exact hhex _ (Nat.mod_lt _ (by omega))
      rcases List.mem_cons.mp h4 with h5 | h5
      · subst h5
        exact hhex _ (Nat.mod_lt _ (by omega))
      · simp at h5

/-- No character of a quoted string is an ampersand or an equals sign,
and all are good query characters. -/
theorem pyQuotePlus_good (s : PyString) :
    ∀ d ∈ pyQuotePlus s, goodQueryChar d = true ∧ d ≠ '&' ∧ d ≠ '=' := by
  intro d hd
  rcases List.mem_flatMap.mp hd with ⟨c, _, hc⟩
  exact quotePlusChar_good hc

/-- Quoting a nonempty string gives a nonempty string. -/
theorem pyQuotePlus_ne_nil {s : PyString} (h : s ≠ []) : pyQuotePlus s ≠ [] := by
  cases s with
  | nil => exact absurd rfl h
  | cons c r =>
    unfold pyQuotePlus
    rw [List.flatMap_cons]
    have hb : quotePlusChar c ≠ [] := by
      unfold quotePlusChar
      split
      · simp
      · split <;> simp
    intro he
    exact hb (List.append_eq_nil.mp he).1

/-- A split result is never the empty list of chunks. -/
theorem pySplit_ne_nil (sep : Char) (l : PyString) : pySplit sep l ≠ [] := by
  cases l with
  | nil => simp [pySplit]
  | cons c rest =>
    simp only [pySplit]
    cases pySplit sep rest with
    | nil => simp
    | cons y t =>
      by_cases hc : c = sep
      · simp [hc]
      · simp [hc]

/-- Splitting a string that does not contain the separator. -/
theorem pySplit_no_sep (sep : Char) (l : PyString) (h : sep ∉ l) :
    pySplit sep l = [l] := by
  induction l with
  | nil => rfl
  | cons c rest ih =>
    rw [List.mem_cons, not_or] at h
    obtain ⟨h1, h2⟩ := h
    have hcs : ¬(c = sep) := fun he => h1 he.symm
    simp [pySplit, ih h2, hcs]

/-- Splitting at the first separator occurrence. -/
theorem pySplit_append (sep : Char) (a b : PyString) (h : sep ∉ a) :
    pySplit sep (a ++ sep :: b) = a :: pySplit sep b := by
  induction a with
  | nil =>
    cases hs : pySplit sep b with
    | nil => exact absurd hs (pySplit_ne_nil sep b)
    | cons y t => simp [pySplit, hs]
  | cons c a' ih =>
    rw [List.mem_cons, not_or] at h
    obtain ⟨h1, h2⟩ := h
    have hcs : ¬(c = sep) := fun he => h1 he.symm
    simp [pySplit, ih h2, hcs]

/-- Splitting once, with no separator present. -/
theorem pySplit1_no_sep (sep : Char) (l : PyString) (h : sep ∉ l) :
    pySplit1 sep l = (l, none) := by
  induction l with
  | nil => rfl
  | cons c rest ih =>
    rw [List.mem_cons, not_or] at h
    obtain ⟨h1, h2⟩ := h
    have hcs : ¬(c = sep) := fun he => h1 he.symm
    simp [pySplit1, ih h2, hcs]

/-- Splitting once at the first separator occurrence. -/
theorem pySplit1_append (sep : Char) (a b : PyString) (h : sep ∉ a) :
    pySplit1 sep (a ++ sep :: b) = (a, some b) := by
  induction a with
  | nil => simp [pySplit1]
  | cons c a' ih =>
    rw [List.mem_cons, not_or] at h
    obtain ⟨h1, h2⟩ := h
    have hcs : ¬(c = sep) := fun he => h1 he.symm
    simp [pySplit1, ih h2, hcs]

/-- The ampersand does not occur in an encoded name=value token. -/
theorem amp_not_mem_token (k v : PyString) :
    '&' ∉ pyQuotePlus k ++ '=' :: pyQuotePlus v := by
  intro hm
  rcases List.mem_append.mp hm with hm | hm
  · exact (pyQuotePlus_good k _ hm).2.1 rfl
  · rcases List.mem_cons.mp hm with hm | hm
    · exact absurd hm.symm (by decide)
    · exact (pyQuotePlus_good v _ hm).2.1 rfl

/-- Parsing an encoded token recovers the pair, on ASCII data with a
nonempty value. -/
theorem parseQslChunk_token (k v : PyString) (hk : asciiStr k = true)
    (hv : asciiStr v = true) (hvne : v ≠ []) :
    parseQslChunk (pyQuotePlus k ++ '=' :: pyQuotePlus v) = some (k, v) := by
  unfold parseQslChunk
  rw [if_neg (by simp)]
  rw [pySplit1_append '=' _ _ (fun hm => (pyQuotePlus_good k _ hm).2.2 rfl)]
  simp only
  rw [if_neg (by simpa using pyQuotePlus_ne_nil hvne)]
  rw [pyUnquote_plusToSpace_quote k hk, pyUnquote_plusToSpace_quote v hv]

/-- An encoded token is nonempty. -/
theorem token_ne_nil (k v : PyString) : pyQuotePlus k ++ '=' :: pyQuotePlus v ≠ [] := by
  simp

/-- urlencode of a one-pair list. -/
theorem urlencode_single (p : PyString × PyString) :
    urlencode [p] = pyQuotePlus p.1 ++ '=' :: pyQuotePlus p.2 := by
  simp [urlencode]

/-- urlencode of a list with at least two pairs. -/
theorem urlencode_cons₂ (p q : PyString × PyString) (rest : List (PyString × PyString)) :
    urlencode (p :: q :: rest)
      = (pyQuotePlus p.1 ++ '=' :: pyQuotePlus p.2) ++ '&' :: urlencode (q :: rest) := by
  unfold urlencode
  rw [List.map_cons, List.map_cons, List.intersperse_cons_cons, List.flatten_cons,
    List.flatten_cons]
  simp

/-- Parsing an encoded query recovers the pair list: the values are
nonempty and both components ASCII. -/
theorem parse_qsl_urlencode (l : List (PyString × PyString))
    (h : ∀ p ∈ l, asciiStr p.1 = true ∧ asciiStr p.2 = true ∧ p.2 ≠ []) :
    parse_qsl (urlencode l) = l := by
  induction l with
  | nil => rfl
  | cons p rest ih =>
    obtain ⟨hk, hv, hvne⟩ := h p (List.mem_cons_self _ _)
    cases rest with
    | nil =>
      rw [urlencode_single]
      unfold parse_qsl
      rw [if_neg (by simp)]
      rw [pySplit_no_sep '&' _ (amp_not_mem_token p.1 p.2)]
      simp [List.filterMap_cons, parseQslChunk_token p.1 p.2 hk hv hvne]
    | cons q rest' =>
      rw [urlencode_cons₂]
      have htail : urlencode (q :: rest') ≠ [] := by
        cases rest' with
        | nil => rw [urlencode_single]; simp
        | cons r rest'' => rw [urlencode_cons₂]; simp
      unfold parse_qsl
      rw [if_neg (by simp)]
      rw [pySplit_append '&' _ _ (amp_not_mem_token p.1 p.2)]
      rw [List.filterMap_cons, parseQslChunk_token p.1 p.2 hk hv hvne]
      have ihr := ih (fun x hx => h x (List.mem_cons_of_mem _ hx))
      unfold parse_qsl at ihr
      rw [if_neg (by simpa using htail)] at ihr
      rw [ihr]

/-- Every character urlencode emits is a good query character. -/
theorem urlencode_good (l : List (PyString × PyString)) :
    ∀ d ∈ urlencode l, goodQueryChar d = true := by
  have token : ∀ (k v : PyString), ∀ d ∈ pyQuotePlus k ++ '=' :: pyQuotePlus v,
      goodQueryChar d = true := by
    intro k v d hd
    rcases List.mem_append.mp hd with h | h
    · exact (pyQuotePlus_good _ _ h).1
    · rcases List.mem_cons.mp h with h | h
      · subst h
        decide
      · exact (pyQuotePlus_good _ _ h).1
  induction l with
  | nil => simp [urlencode]
  | cons p rest ih =>
    cases rest with
    | nil =>
      rw [urlencode_single]
      exact token p.1 p.2
    | cons q rest' =>
      rw [urlencode_cons₂]
      intro d hd
      rcases List.mem_append.mp hd with h | h
      · exact token p.1 p.2 d h
      · rcases List.mem_cons.mp h with h | h
        · subst h
          decide
        · exact ih d h

/-- takeWhile over a list whose elements all satisfy the predicate. -/
theorem takeWhile_all {α : Type} (p : α → Bool) (l : List α)
    (h : ∀ x ∈ l, p x = true) : l.takeWhile p = l := by
  induction l with
  | nil => rfl
  | cons x rest ih =>
    rw [List.takeWhile_cons, if_pos (h x (List.mem_cons_self _ _)),
      ih (fun y hy => h y (List.mem_cons_of_mem _ hy))]

/-- dropWhile over a list whose elements all satisfy the predicate. -/
theorem dropWhile_all {α : Type} (p : α → Bool) (l : List α)
    (h : ∀ x ∈ l, p x = true) : l.dropWhile p = [] := by
  induction l with
  | nil => rfl
  | cons x rest ih =>
    rw [List.dropWhile_cons, if_pos (h x (List.mem_cons_self _ _)),
      ih (fun y hy => h y (List.mem_cons_of_mem _ hy))]

/-- The code-point ranges of scheme characters. -/
theorem isSchemeChar_ranges {c : Char} (h : isSchemeChar c = true) :
    (65 ≤ c.toNat ∧ c.toNat ≤ 90) ∨ (97 ≤ c.toNat ∧ c.toNat ≤ 122)
      ∨ (48 ≤ c.toNat ∧ c.toNat ≤ 57) ∨ c.toNat = 43 ∨ c.toNat = 45
      ∨ c.toNat = 46 := by
  unfold isSchemeChar Char.isAlphanum Char.isAlpha Char.isUpper Char.isLower
    Char.isDigit at h
  have hup : ∀ (a b : UInt32), (decide (c.val ≥ a) && decide (c.val ≤ b)) = true →
      a.toNat ≤ c.toNat ∧ c.toNat ≤ b.toNat := by
    intro a b hh
    obtain ⟨h1, h2⟩ := Bool.and_eq_true_iff.mp hh
    have g1 := of_decide_eq_true h1
    have g2 := of_decide_eq_true h2
    rw [ge_iff_le, UInt32.le_def, BitVec.le_def] at g1
    rw [UInt32.le_def, BitVec.le_def] at g2
    exact ⟨g1, g2⟩
  rcases Bool.or_eq_true_iff.mp h with h | h
  · rcases Bool.or_eq_true_iff.mp h with h | h
    · rcases Bool.or_eq_true_iff.mp h with h | h
      · rcases Bool.or_eq_true_iff.mp h with h | h
        · rcases Bool.or_eq_true_iff.mp h with h | h
          · exact Or.inl (hup 65 90 h)
          · exact Or.inr (Or.inl (hup 97 122 h))
        · exact Or.inr (Or.inr (Or.inl (hup 48 57 h)))
      · have g := of_decide_eq_true h
        subst g
        exact Or.inr (Or.inr (Or.inr (Or.inl rfl)))
    · have g := of_decide_eq_true h
      subst g
      exact Or.inr (Or.inr (Or.inr (Or.inr (Or.inl rfl))))
  · have g := of_decide_eq_true h
    subst g
    exact Or.inr (Or.inr (Or.inr (Or.inr (Or.inr rfl))))

/-- Numeric consequences of being a scheme character. -/
theorem isSchemeChar_facts {c : Char} (h : isSchemeChar c = true) :
    32 < c.toNat ∧ c.toNat ≠ 58 ∧ isUnsafeUrlByte c = false := by
  have hr := isSchemeChar_ranges h
  have hb : 32 < c.toNat ∧ c.toNat ≠ 58 ∧ c.toNat ≠ 9 ∧ c.toNat ≠ 13 ∧ c.toNat ≠ 10 := by
    rcases hr with ⟨a, b⟩ | ⟨a, b⟩ | ⟨a, b⟩ | a | a | a <;>
      exact ⟨by omega, by omega, by omega, by omega, by omega⟩
  obtain ⟨hgt, h58, h9, h13, h10⟩ := hb
  refine ⟨hgt, h58, ?_⟩
  unfold isUnsafeUrlByte
  simp only [Bool.or_eq_false_iff, decide_eq_false_iff_not]
  exact ⟨⟨char_ne_of_toNat_ne h9, char_ne_of_toNat_ne h13⟩, char_ne_of_toNat_ne h10⟩

/-- A good path is empty or starts with a slash. -/
theorem goodPath_shape (pa : PyString) (hp : goodPath pa = true) :
    pa = [] ∨ ∃ r, pa = '/' :: r := by
  unfold goodPath at hp
  obtain ⟨hph, _⟩ := Bool.and_eq_true_iff.mp hp
  cases hpp : pa with
  | nil => exact Or.inl rfl
  | cons c r =>
    rw [hpp] at hph
    rcases Bool.or_eq_true_iff.mp hph with he | hh
    · simp at he
    · have hc := of_decide_eq_true hh
      simp only [List.headD_cons] at hc
      exact Or.inr ⟨r, by rw [hc]⟩

/-- The string urlunsplit builds for a nonempty scheme and netloc and a
good path. -/
theorem urlunsplit_good (p : UrlParts) (hsne : p.scheme ≠ []) (hnne : p.netloc ≠ [])
    (hp : goodPath p.path = true) :
    urlunsplit p
      = p.scheme ++ ':' :: '/' :: '/' :: (p.netloc
          ++ (p.path
            ++ ((if p.query.isEmpty then [] else '?' :: p.query)
              ++ (if p.fragment.isEmpty then [] else '#' :: p.fragment)))) := by
  have hs' : p.scheme.isEmpty = false := by simpa using hsne
  have hn' : p.netloc.isEmpty = false := by simpa using hnne
  rcases goodPath_shape p.path hp with hnil | ⟨r, hcons⟩
  · by_cases hq : p.query = [] <;> by_cases hf : p.fragment = [] <;>
      simp [urlunsplit, hnil, hs', hn', hq, hf, List.append_assoc]
  · by_cases hq : p.query = [] <;> by_cases hf : p.fragment = [] <;>
      simp [urlunsplit, hcons, hs', hn', hq, hf, List.append_assoc]

/-- An alpha character is above the control range. -/
theorem isAlpha_gt32 {c : Char} (h : c.isAlpha = true) : 32 < c.toNat := by
  have hup : ∀ (a b : UInt32), (decide (c.val ≥ a) && decide (c.val ≤ b)) = true →
      a.toNat ≤ c.toNat ∧ c.toNat ≤ b.toNat := by
    intro a b hh
    obtain ⟨h1, h2⟩ := Bool.and_eq_true_iff.mp hh
    have g1 := of_decide_eq_true h1
    have g2 := of_decide_eq_true h2
    rw [ge_iff_le, UInt32.le_def, BitVec.le_def] at g1
    rw [UInt32.le_def, BitVec.le_def] at g2
    exact ⟨g1, g2⟩
  unfold Char.isAlpha Char.isUpper Char.isLower at h
  have e1 : (65 : UInt32).toNat = 65 := by decide
  have e2 : (90 : UInt32).toNat = 90 := by decide
  have e3 : (97 : UInt32).toNat = 97 := by decide
  have e4 : (122 : UInt32).toNat = 122 := by decide
  rcases Bool.or_eq_true_iff.mp h with h | h
  · have hb := hup 65 90 h
    omega
  · have hb := hup 97 122 h
    omega

/-- A character above the control range differs from any control
character. -/
theorem char_ne_of_gt32 {c d : Char} (h : 32 < c.toNat) (hd : d.toNat ≤ 32) : c ≠ d :=
  char_ne_of_toNat_ne (by omega)

/-- A code point above 32 is not a removed byte and not a control. -/
theorem gt32_notUnsafe {c : Char} (h : 32 < c.toNat) :
    isUnsafeUrlByte c = false ∧ isC0ControlOrSpace c = false := by
  constructor
  · unfold isUnsafeUrlByte
    simp only [Bool.or_eq_false_iff, decide_eq_false_iff_not]
    exact ⟨⟨char_ne_of_gt32 h (by decide), char_ne_of_gt32 h (by decide)⟩,
      char_ne_of_gt32 h (by decide)⟩
  · unfold isC0ControlOrSpace
    simp only [decide_eq_false_iff_not]
    omega

/-- Facts about a host character. -/
theorem goodHostChar_facts {c : Char} (h : goodHostChar c = true) :
    isUnsafeUrlByte c = false ∧ (!(c = '/' || c = '?' || c = '#')) = true := by
  unfold goodHostChar at h
  obtain ⟨h1, h2⟩ := Bool.and_eq_true_iff.mp h
  obtain ⟨_, hgt⟩ := Bool.and_eq_true_iff.mp h1
  have hgt' := of_decide_eq_true hgt
  refine ⟨(gt32_notUnsafe hgt').1, ?_⟩
  rw [Bool.not_eq_true'] at h2 ⊢
  simp only [Bool.or_eq_false_iff, decide_eq_false_iff_not] at h2 ⊢
  exact h2.1.1

/-- Facts about a path character. -/
theorem goodPathChar_facts {c : Char} (h : goodPathChar c = true) :
    isUnsafeUrlByte c = false ∧ ¬(c = '?') ∧ ¬(c = '#') := by
  unfold goodPathChar at h
  obtain ⟨_, h2⟩ := Bool.and_eq_true_iff.mp h
  rw [Bool.not_eq_true'] at h2
  simp only [Bool.or_eq_false_iff, decide_eq_false_iff_not] at h2
  exact ⟨h2.2, h2.1.1, h2.1.2⟩

/-- Facts about a query character. -/
theorem goodQueryChar_facts {c : Char} (h : goodQueryChar c = true) :
    isUnsafeUrlByte c = false ∧ ¬(c = '?') ∧ ¬(c = '#') := by
  unfold goodQueryChar at h
  obtain ⟨_, h2⟩ := Bool.and_eq_true_iff.mp h
  rw [Bool.not_eq_true'] at h2
  simp only [Bool.or_eq_false_iff, decide_eq_false_iff_not] at h2
  exact ⟨h2.2, h2.1.1, h2.1.2⟩

/-- Facts about a fragment character. -/
theorem goodFragChar_facts {c : Char} (h : goodFragChar c = true) :
    isUnsafeUrlByte c = false ∧ ¬(c = '#') := by
  unfold goodFragChar at h
  obtain ⟨_, h2⟩ := Bool.and_eq_true_iff.mp h
  rw [Bool.not_eq_true'] at h2
  simp only [Bool.or_eq_false_iff, decide_eq_false_iff_not] at h2
  exact ⟨h2.2, h2.1⟩

/-- takeWhile over an append whose first part satisfies the predicate. -/
theorem takeWhile_append_all {α : Type} {p : α → Bool} (l₁ l₂ : List α)
    (h : ∀ c ∈ l₁, p c = true) :
    List.takeWhile p (l₁ ++ l₂) = l₁ ++ List.takeWhile p l₂ := by
  induction l₁ with
  | nil => simp
  | cons a t ih =>
    rw [List.cons_append, List.takeWhile_cons, if_pos (h a (List.mem_cons_self a t)),
      List.cons_append, ih (fun c hc => h c (List.mem_cons_of_mem a hc))]

/-- dropWhile over an append whose first part satisfies the predicate. -/
theorem dropWhile_append_all {α : Type} {p : α → Bool} (l₁ l₂ : List α)
    (h : ∀ c ∈ l₁, p c = true) :
    List.dropWhile p (l₁ ++ l₂) = List.dropWhile p l₂ := by
  induction l₁ with
  | nil => simp
  | cons a t ih =>
    rw [List.cons_append, List.dropWhile_cons, if_pos (h a (List.mem_cons_self a t)),
      ih (fun c hc => h c (List.mem_cons_of_mem a hc))]

/-- urlsplit recovers the five components from the URL urlunsplit builds,
for a good scheme, host, path, query and fragment. -/
theorem urlsplit_urlunsplit (p : UrlParts)
    (hs : goodScheme p.scheme = true) (hn : goodHost p.netloc = true)
    (hp : goodPath p.path = true) (hq : ∀ d ∈ p.query, goodQueryChar d = true)
    (hf : goodFrag p.fragment = true) :
    urlsplit (urlunsplit p) = p := by
  obtain ⟨sch, nl, pa, qu, fr⟩ := p
  simp only at hs hn hp hq hf
  unfold goodScheme at hs
  obtain ⟨hs1, hlow⟩ := Bool.and_eq_true_iff.mp hs
  obtain ⟨hs2, hsc⟩ := Bool.and_eq_true_iff.mp hs1
  obtain ⟨hs3, hhead⟩ := Bool.and_eq_true_iff.mp hs2
  have hsne : sch ≠ [] := by simpa using hs3
  unfold goodHost at hn
  obtain ⟨hn1, hnall⟩ := Bool.and_eq_true_iff.mp hn
  have hnne : nl ≠ [] := by simpa using hn1
  have hschars : ∀ c ∈ sch, isSchemeChar c = true := List.all_eq_true.mp hsc
  have hlows : ∀ c ∈ sch, c.toLower = c :=
    fun c hc => of_decide_eq_true (List.all_eq_true.mp hlow c hc)
  have hnchars : ∀ c ∈ nl, goodHostChar c = true := List.all_eq_true.mp hnall
  have hpchars : ∀ c ∈ pa, goodPathChar c = true := by
    unfold goodPath at hp
    exact List.all_eq_true.mp (Bool.and_eq_true_iff.mp hp).2
  have hfchars : ∀ c ∈ fr, goodFragChar c = true := List.all_eq_true.mp hf
  rw [urlunsplit_good ⟨sch, nl, pa, qu, fr⟩ hsne hnne hp]
  simp only
  obtain ⟨s0, s', rfl⟩ := List.exists_cons_of_ne_nil hsne
  have hs0 : s0.isAlpha = true := by simpa using hhead
  have hs0gt : 32 < s0.toNat := isAlpha_gt32 hs0
  set QF : PyString := (if qu.isEmpty then [] else '?' :: qu)
      ++ (if fr.isEmpty then [] else '#' :: fr) with hQFdef
  set T : PyString := pa ++ QF with hTdef
  have hQFmem : ∀ c ∈ QF, c = '?' ∨ (c ∈ qu) ∨ c = '#' ∨ (c ∈ fr) := by
    intro c hc
    rcases List.mem_append.mp hc with h | h
    · by_cases hque : qu.isEmpty
      · rw [if_pos hque] at h
        simp at h
      · rw [if_neg hque] at h
        rcases List.mem_cons.mp h with h | h
        · exact Or.inl h
        · exact Or.inr (Or.inl h)
    · by_cases hfre : fr.isEmpty
      · rw [if_pos hfre] at h
        simp at h
      · rw [if_neg hfre] at h
        rcases List.mem_cons.mp h with h | h
        · exact Or.inr (Or.inr (Or.inl h))
        · exact Or.inr (Or.inr (Or.inr h))
  have hTnoUnsafe : ∀ c ∈ T, isUnsafeUrlByte c = false := by
    intro c hc
    rcases List.mem_append.mp hc with h | h
    · exact (goodPathChar_facts (hpchars c h)).1
    · rcases hQFmem c h with h | h | h | h
      · rw [h]; decide
      · exact (goodQueryChar_facts (hq c h)).1
      · rw [h]; decide
      · exact (goodFragChar_facts (hfchars c h)).1
  have hU1 : List.dropWhile isC0ControlOrSpace
      ((s0 :: s') ++ ':' :: '/' :: '/' :: (nl ++ T)) = (s0 :: s') ++ ':' :: '/' :: '/' :: (nl ++ T) := by
    rw [List.cons_append, List.dropWhile_cons, if_neg (by
      rw [(gt32_notUnsafe hs0gt).2]
      simp)]
  have hU2 : List.filter (fun c => !isUnsafeUrlByte c)
      ((s0 :: s') ++ ':' :: '/' :: '/' :: (nl ++ T)) = (s0 :: s') ++ ':' :: '/' :: '/' :: (nl ++ T) := by
    rw [List.filter_eq_self]
    intro c hc
    rcases List.mem_append.mp hc with h | h
    · rw [(isSchemeChar_facts (hschars c h)).2.2]
      rfl
    · rcases List.mem_cons.mp h with h | h
      · rw [h]; decide
      rcases List.mem_cons.mp h with h | h
      · rw [h]; decide
      rcases List.mem_cons.mp h with h | h
      · rw [h]; decide
      rcases List.mem_append.mp h with h | h
      · rw [(gt32_notUnsafe (of_decide_eq_true
          (Bool.and_eq_true_iff.mp ((Bool.and_eq_true_iff.mp (hnchars c h)).1)).2)).1]
        rfl
      · rw [hTnoUnsafe c h]
        rfl
  have hnocolon : ':' ∉ s0 :: s' := by
    intro hm
    have := (isSchemeChar_facts (hschars _ hm)).2.1
    exact this rfl
  have hsplitScheme : splitScheme ((s0 :: s') ++ ':' :: '/' :: '/' :: (nl ++ T))
      = (s0 :: s', '/' :: '/' :: (nl ++ T)) := by
    unfold splitScheme splitFirst?
    rw [pySplit1_append ':' _ _ hnocolon]
    simp only
    rw [if_pos (by
      refine Bool.and_eq_true_iff.mpr ⟨by simp, ?_⟩
      simpa using hhead)]
    rw [if_pos hsc]
    congr 1
    unfold pyLower
    rw [List.map_congr_left (fun c hc => hlows c hc)]
    exact List.map_id' _
  have hhostpred : ∀ c ∈ nl, (!(c = '/' || c = '?' || c = '#')) = true :=
    fun c hc => (goodHostChar_facts (hnchars c hc)).2
  have hTstop : T = [] ∨ ∃ c t, T = c :: t ∧ (!(c = '/' || c = '?' || c = '#')) = false := by
    rcases goodPath_shape pa hp with hnil | ⟨r, hcons⟩
    · rw [hTdef, hnil, List.nil_append, hQFdef]
      by_cases hque : qu.isEmpty
      · rw [if_pos hque, List.nil_append]
        by_cases hfre : fr.isEmpty
        · rw [if_pos hfre]
          exact Or.inl rfl
        · rw [if_neg hfre]
          exact Or.inr ⟨'#', fr, rfl, by decide⟩
      · rw [if_neg hque, List.cons_append]
        exact Or.inr ⟨'?', _, rfl, by decide⟩
    · rw [hTdef, hcons, List.cons_append]
      exact Or.inr ⟨'/', _, rfl, by decide⟩
  have htakeT : List.takeWhile (fun c => !(c = '/' || c = '?' || c = '#')) T = [] := by
    rcases hTstop with h | ⟨c, t, heq, hcf⟩
    · rw [h]
      rfl
    · rw [heq, List.takeWhile_cons, if_neg (by rw [hcf]; simp)]
  have hdropT : List.dropWhile (fun c => !(c = '/' || c = '?' || c = '#')) T = T := by
    rcases hTstop with h | ⟨c, t, heq, hcf⟩
    · rw [h]
      rfl
    · rw [heq, List.dropWhile_cons, if_neg (by rw [hcf]; simp)]
  have hnet : splitNetloc (nl ++ T) = (nl, T) := by
    unfold splitNetloc
    rw [takeWhile_append_all _ _ hhostpred, htakeT, List.append_nil,
      dropWhile_append_all _ _ hhostpred, hdropT]
  have hnohashpa : '#' ∉ pa := fun hm => (goodPathChar_facts (hpchars _ hm)).2.2 rfl
  have hnoqpa : '?' ∉ pa := fun hm => (goodPathChar_facts (hpchars _ hm)).2.1 rfl
  have hnohashqu : '#' ∉ qu := fun hm => (goodQueryChar_facts (hq _ hm)).2.2 rfl
  unfold urlsplit
  simp only
  rw [hU1, hU2, hsplitScheme]
  simp only
  rw [if_pos (show List.take 2 ('/' :: '/' :: (nl ++ T)) = ['/', '/'] from rfl)]
  simp only [List.drop_succ_cons, List.drop_zero]
  rw [hnet]
  simp only
  by_cases hque : qu.isEmpty
  · have hqnil : qu = [] := by simpa using hque
    by_cases hfre : fr.isEmpty
    · have hfnil : fr = [] := by simpa using hfre
      have hT : T = pa := by
        rw [hTdef, hQFdef, if_pos hque, if_pos hfre]
        simp
      rw [hT]
      rw [show splitFirst? '#' pa = none from by
        unfold splitFirst?
        rw [pySplit1_no_sep '#' pa hnohashpa]]
      simp only
      rw [show splitFirst? '?' pa = none from by
        unfold splitFirst?
        rw [pySplit1_no_sep '?' pa hnoqpa]]
      simp [hqnil, hfnil]
    · have hfne : fr ≠ [] := by simpa using hfre
      have hT : T = pa ++ '#' :: fr := by
        rw [hTdef, hQFdef, if_pos hque, if_neg hfre]
        simp
      rw [hT]
      rw [show splitFirst? '#' (pa ++ '#' :: fr) = some (pa, fr) from by
        unfold splitFirst?
        rw [pySplit1_append '#' _ _ hnohashpa]]
      simp only
      rw [show splitFirst? '?' pa = none from by
        unfold splitFirst?
        rw [pySplit1_no_sep '?' pa hnoqpa]]
      simp [hqnil]
  · have hqne : qu ≠ [] := by simpa using hque
    by_cases hfre : fr.isEmpty
    · have hfnil : fr = [] := by simpa using hfre
      have hT : T = pa ++ '?' :: qu := by
        rw [hTdef, hQFdef, if_neg hque, if_pos hfre]
        simp
      rw [hT]
      rw [show splitFirst? '#' (pa ++ '?' :: qu) = none from by
        unfold splitFirst?
        rw [pySplit1_no_sep '#' _ (by
          intro hm
          rcases List.mem_append.mp hm with h | h
          · exact hnohashpa h
          · rcases List.mem_cons.mp h with h | h
            · exact absurd h.symm (by decide)
            · exact hnohashqu h)]]
      simp only
      rw [show splitFirst? '?' (pa ++ '?' :: qu) = some (pa, qu) from by
        unfold splitFirst?
        rw [pySplit1_append '?' _ _ hnoqpa]]
      simp [hfnil]
    · have hfne : fr ≠ [] := by simpa using hfre
      have hT : T = (pa ++ '?' :: qu) ++ '#' :: fr := by
        rw [hTdef, hQFdef, if_neg hque, if_neg hfre]
        simp
      rw [hT]
      rw [show splitFirst? '#' ((pa ++ '?' :: qu) ++ '#' :: fr) = some (pa ++ '?' :: qu, fr) from by
        unfold splitFirst?
        rw [pySplit1_append '#' _ _ (by
          intro hm
          rcases List.mem_append.mp hm with h | h
          · exact hnohashpa h
          · rcases List.mem_cons.mp h with h | h
            · exact absurd h.symm (by decide)
            · exact hnohashqu h)]]
      simp only
      rw [show splitFirst? '?' (pa ++ '?' :: qu) = some (pa, qu) from by
        unfold splitFirst?
        rw [pySplit1_append '?' _ _ hnoqpa]]

/-- A value found by dictGet? is among the dictionary's values. -/
theorem dictGet?_mem {α : Type} (d : PyDict α) (k : PyString) (v : α)
    (h : dictGet? d k = some v) : v ∈ d.map Prod.snd := by
  induction d with
  | nil => exact absurd h (by simp [dictGet?])
  | cons p rest ih =>
    obtain ⟨k', v'⟩ := p
    rw [show dictGet? ((k', v') :: rest) k
        = if k' = k then some v' else dictGet? rest k from rfl] at h
    by_cases hk : k' = k
    · rw [if_pos hk] at h
      have hv : v' = v := Option.some_inj.mp h
      rw [List.map_cons, ← hv]
      exact List.mem_cons_self _ _
    · rw [if_neg hk] at h
      exact List.mem_cons_of_mem _ (ih h)

/-- Output shape of a successful service resolution: one `service_sel[]`
pair per requested service, each with ASCII components and a nonempty
value. -/
theorem resolveServices_ok {l : List PyString} {sels : List (PyString × PyString)}
    (h : resolveServices l = .ok sels) :
    sels.map Prod.fst = l.map (fun _ => (("service_sel[]")).toList)
      ∧ ∀ p ∈ sels, asciiStr p.1 = true ∧ asciiStr p.2 = true ∧ p.2 ≠ [] := by
  induction l generalizing sels with
  | nil =>
    rw [resolveServices] at h
    injection h with h
    rw [← h]
    simp
  | cons svc rest ih =>
    rw [resolveServices] at h
    split at h
    · exact absurd h (by simp)
    · rename_i idv hd
      split at h
      · exact absurd h (by simp)
      · cases hr : resolveServices rest with
        | error e =>
          rw [hr] at h
          exact absurd h (by simp [Except.map])
        | ok tail =>
          rw [hr] at h
          have h' : Except.ok (ε := PyErr)
              (((("service_sel[]")).toList, (toString idv).toList) :: tail) = .ok sels := h
          injection h' with h'
          obtain ⟨h1, h2⟩ := ih hr
          rw [← h']
          refine ⟨by rw [List.map_cons, List.map_cons, h1], ?_⟩
          intro p hp
          rcases List.mem_cons.mp hp with hp | hp
          · have hmem :=
              (show ∀ w ∈ SERVICE_IDS.map Prod.snd,
                  asciiStr (toString w).toList = true ∧ (toString w).toList ≠ [] from by decide)
                idv (dictGet?_mem _ _ _ hd)
            rw [hp]
            refine ⟨?_, hmem.1, hmem.2⟩
            show asciiStr ((("service_sel[]")).toList) = true
            decide
          · exact h2 p hp

/-- Output shape of a successful owner-VO resolution: one `voown_sel[]`
pair per requested VO; with ASCII map values, each pair has ASCII
components and a nonempty value. -/
theorem resolveVos_ok {vm : VoMap} {l : List PyString} {sels : List (PyString × PyString)}
    (hvm : ∀ v ∈ vm.map Prod.snd, asciiStr (v.getD []) = true)
    (h : resolveVos vm l = .ok sels) :
    sels.map Prod.fst = l.map (fun _ => (("voown_sel[]")).toList)
      ∧ ∀ p ∈ sels, asciiStr p.1 = true ∧ asciiStr p.2 = true ∧ p.2 ≠ [] := by
  induction l generalizing sels with
  | nil =>
    rw [resolveVos] at h
    injection h with h
    rw [← h]
    simp
  | cons vo rest ih =>
    rw [resolveVos] at h
    split at h
    · exact absurd h (by simp)
    · rename_i idv hd
      split at h
      · exact absurd h (by simp)
      · rename_i htr
        cases hr : resolveVos vm rest with
        | error e =>
          rw [hr] at h
          exact absurd h (by simp [Except.map])
        | ok tail =>
          rw [hr] at h
          have h' : Except.ok (ε := PyErr) (((("voown_sel[]")).toList, idv.getD []) :: tail)
              = .ok sels := h
          injection h' with h'
          obtain ⟨h1, h2⟩ := ih hr
          rw [← h']
          refine ⟨by rw [List.map_cons, List.map_cons, h1], ?_⟩
          intro p hp
          rcases List.mem_cons.mp hp with hp | hp
          · have htt : truthyStr idv = true := by
              rcases Bool.eq_false_or_eq_true (truthyStr idv) with ht2 | hf
              · exact ht2
              · exact absurd (by rw [hf]; rfl) htr
            have hne : idv.getD [] ≠ [] := by
              cases idv with
              | none => exact absurd htt (by decide)
              | some s =>
                intro he
                have hs : s = [] := by simpa using he
                rw [hs] at htt
                exact absurd htt (by decide)
            rw [hp]
            refine ⟨?_, hvm idv (dictGet?_mem _ _ _ hd), hne⟩
            show asciiStr ((("voown_sel[]")).toList) = true
            decide
          · exact h2 p hp

/-- Every pair of the mangled query is clean (ASCII components, nonempty
value) when the base pairs and the selector pairs of whichever stages run
are. -/
theorem mangledQuery_clean (args : Args) (base ssels vsels : List (PyString × PyString))
    (hb : ∀ p ∈ base, asciiStr p.1 = true ∧ asciiStr p.2 = true ∧ p.2 ≠ [])
    (hs : truthyStr args.provides_service = true →
      ∀ p ∈ ssels, asciiStr p.1 = true ∧ asciiStr p.2 = true ∧ p.2 ≠ [])
    (hv : truthyStr args.owner_vo = true →
      ∀ p ∈ vsels, asciiStr p.1 = true ∧ asciiStr p.2 = true ∧ p.2 ≠ []) :
    ∀ p ∈ mangledQuery args base ssels vsels,
      asciiStr p.1 = true ∧ asciiStr p.2 = true ∧ p.2 ≠ [] := by
  have hstage : ∀ p ∈ serviceStage args base ssels,
      asciiStr p.1 = true ∧ asciiStr p.2 = true ∧ p.2 ≠ [] := by
    intro p hp
    unfold serviceStage at hp
    split at hp
    · rename_i hps
      rcases List.mem_append.mp hp with h | h
      · unfold withServiceFlag at h
        split at h
        · exact hb p h
        · rcases List.mem_append.mp h with h | h
          · exact hb p h
          · rw [List.mem_singleton.mp h]
            exact ⟨by decide, by decide, by decide⟩
      · exact hs hps p h
    · exact hb p hp
  intro p hp
  unfold mangledQuery at hp
  split at hp
  · rename_i hpo
    rcases List.mem_append.mp hp with h | h
    · unfold withVoownFlag at h
      split at h
      · exact hstage p h
      · rcases List.mem_append.mp h with h | h
        · exact hstage p h
        · rw [List.mem_singleton.mp h]
          exact ⟨by decide, by decide, by decide⟩
    · exact hv hpo p h
  · exact hstage p hp

/-- C1, counterexample to the claim as stated: with no alternate host the
Query Builder returns the URL unchanged, whether the arguments carry a
service-filter intent (the known service ce) or an owning-VO intent (the
known VO atlas); no selector and no flag parameter is appended, against
the claim's "appended whether or not an alternate host is supplied". -/
theorem C1_counterexample_no_selector_without_host :
    mangle_url (.ok exampleVoMap) exampleBaseUrl { provides_service := some (("ce")).toList }
        = .ok exampleBaseUrl
      ∧ mangle_url (.ok exampleVoMap) exampleBaseUrl { owner_vo := some (("atlas")).toList }
        = .ok exampleBaseUrl
      ∧ ((parse_qsl (urlsplit exampleBaseUrl).query).map Prod.fst).contains
          ((("service_sel[]")).toList) = false
      ∧ ((parse_qsl (urlsplit exampleBaseUrl).query).map Prod.fst).contains
          ((("voown_sel[]")).toList) = false
      ∧ ((parse_qsl (urlsplit exampleBaseUrl).query).map Prod.fst).contains
          ((("service")).toList) = false
      ∧ ((parse_qsl (urlsplit exampleBaseUrl).query).map Prod.fst).contains
          ((("voown")).toList) = false := by
  decide

/-- C1 (amended): when the arguments carry a service-filter intent and/or
an owning-VO intent together with a truthy alternate host, the Query
Builder returns the URL rebuilt with the host as its network location and
with the query re-encoded as the base parameters followed, per intent, by
the `service=on` flag (added once, only when the base query has no
`service` key) and one `service_sel[]` selector per resolved service, and
by the `voown=on` flag (added once, only when the base query has no
`voown` key) and one `voown_sel[]` selector per resolved owner VO;
splitting the result recovers exactly these components, so the override
touches only the network location.  Without an alternate host the URL is
returned unchanged: the filter parameters are NOT appended in that case. -/
theorem C1_query_builder_appends_filters (u : UrlParts) (args : Args) (vm : VoMap)
    (ssels vsels : List (PyString × PyString))
    (hsch : goodScheme u.scheme = true) (hnet : goodHost u.netloc = true)
    (hpath : goodPath u.path = true) (hqu : ∀ d ∈ u.query, goodQueryChar d = true)
    (hfrag : goodFrag u.fragment = true)
    (hbase : ∀ p ∈ parse_qsl u.query, asciiStr p.1 = true ∧ asciiStr p.2 = true ∧ p.2 ≠ [])
    (hvm : ∀ v ∈ vm.map Prod.snd, asciiStr (v.getD []) = true)
    (hres : truthyStr args.provides_service = true →
      resolveServices (pySplit ',' (args.provides_service.getD [])) = .ok ssels)
    (hvres : truthyStr args.owner_vo = true →
      resolveVos vm (pySplit ',' (args.owner_vo.getD [])) = .ok vsels) :
    (∀ host, args.host = some host → host ≠ [] → goodHost host = true →
      mangle_url (.ok vm) (urlunsplit u) args
          = .ok (urlunsplit { u with
              netloc := host
              query := urlencode (mangledQuery args (parse_qsl u.query) ssels vsels) })
        ∧ urlsplit (urlunsplit { u with
              netloc := host
              query := urlencode (mangledQuery args (parse_qsl u.query) ssels vsels) })
            = { u with
                netloc := host
                query := urlencode (mangledQuery args (parse_qsl u.query) ssels vsels) }
        ∧ parse_qsl (urlencode (mangledQuery args (parse_qsl u.query) ssels vsels))
            = mangledQuery args (parse_qsl u.query) ssels vsels
        ∧ (truthyStr args.provides_service = true →
            ssels.map Prod.fst
              = (pySplit ',' (args.provides_service.getD [])).map
                  (fun _ => (("service_sel[]")).toList))
        ∧ (truthyStr args.owner_vo = true →
            vsels.map Prod.fst
              = (pySplit ',' (args.owner_vo.getD [])).map
                  (fun _ => (("voown_sel[]")).toList)))
    ∧ (truthyStr args.host = false →
        mangle_url (.ok vm) (urlunsplit u) args = .ok (urlunsplit u)) := by
  constructor
  · intro host hh hne hgh
    have ht : truthyStr args.host = true := by
      rw [hh]
      simpa [truthyStr] using hne
    have hcleanAll : ∀ p ∈ mangledQuery args (parse_qsl u.query) ssels vsels,
        asciiStr p.1 = true ∧ asciiStr p.2 = true ∧ p.2 ≠ [] :=
      mangledQuery_clean args _ ssels vsels hbase
        (fun hps => (resolveServices_ok (hres hps)).2)
        (fun hpo => (resolveVos_ok hvm (hvres hpo)).2)
    refine ⟨?_, urlsplit_urlunsplit _ hsch hgh hpath (urlencode_good _) hfrag,
      parse_qsl_urlencode _ hcleanAll,
      fun hps => (resolveServices_ok (hres hps)).1,
      fun hpo => (resolveVos_ok hvm (hvres hpo)).1⟩
    by_cases hps : truthyStr args.provides_service = true
    · by_cases hpo : truthyStr args.owner_vo = true
      · have hmq : mangledQuery args (parse_qsl u.query) ssels vsels
            = withVoownFlag ((parse_qsl u.query).map Prod.fst)
                (withServiceFlag (parse_qsl u.query) ++ ssels) ++ vsels := by
          rw [mangledQuery, serviceStage, hps, hpo]
          rfl
        rw [hmq, mangle_url, if_neg (by rw [ht]; decide)]
        rw [urlsplit_urlunsplit u hsch hnet hpath hqu hfrag, hh]
        rw [hps, if_pos rfl, hres hps, ok_bind, pure_eq_ok, ok_bind]
        simp only []
        rw [hpo, if_pos rfl, ok_bind, hvres hpo, ok_bind, pure_eq_ok, ok_bind]
        rfl
      · have hpo' : truthyStr args.owner_vo = false := by simpa using hpo
        have hmq : mangledQuery args (parse_qsl u.query) ssels vsels
            = withServiceFlag (parse_qsl u.query) ++ ssels := by
          rw [mangledQuery, serviceStage, hps, hpo']
          rfl
        rw [hmq, mangle_url, if_neg (by rw [ht]; decide)]
        rw [urlsplit_urlunsplit u hsch hnet hpath hqu hfrag, hh]
        rw [hps, if_pos rfl, hres hps, ok_bind, pure_eq_ok, ok_bind]
        simp only []
        rw [hpo', if_neg (show ¬(false = true) from by decide)]
        rw [pure_eq_ok, ok_bind]
        rfl
    · have hps' : truthyStr args.provides_service = false := by simpa using hps
      by_cases hpo : truthyStr args.owner_vo = true
      · have hmq : mangledQuery args (parse_qsl u.query) ssels vsels
            = withVoownFlag ((parse_qsl u.query).map Prod.fst)
                (parse_qsl u.query) ++ vsels := by
          rw [mangledQuery, serviceStage, hps', hpo]
          rfl
        rw [hmq, mangle_url, if_neg (by rw [ht]; decide)]
        rw [urlsplit_urlunsplit u hsch hnet hpath hqu hfrag, hh]
        rw [hps', if_neg (show ¬(false = true) from by decide), pure_eq_ok, ok_bind]
        simp only []
        rw [hpo, if_pos rfl, ok_bind, hvres hpo, ok_bind, pure_eq_ok, ok_bind]
        rfl
      · have hpo' : truthyStr args.owner_vo = false := by simpa using hpo
        have hmq : mangledQuery args (parse_qsl u.query) ssels vsels
            = parse_qsl u.query := by
          rw [mangledQuery, serviceStage, hps', hpo']
          rfl
        rw [hmq, mangle_url, if_neg (by rw [ht]; decide)]
        rw [urlsplit_urlunsplit u hsch hnet hpath hqu hfrag, hh]
        rw [hps', if_neg (show ¬(false = true) from by decide), pure_eq_ok, ok_bind]
        simp only []
        rw [hpo', if_neg (show ¬(false = true) from by decide)]
        rw [pure_eq_ok, ok_bind]
        rfl
  · intro hf
    rw [mangle_url, if_pos (by rw [hf]; decide)]

/-- C1 witness: the amended theorem applied to the resource-group base URL,
the alternate host example.com, the service ce and the owner VO atlas. -/
theorem C1_query_builder_appends_filters_witness :
    (∀ host, exampleServiceArgs.host = some host → host ≠ [] → goodHost host = true →
      mangle_url (.ok exampleVoMap) (urlunsplit (urlsplit exampleBaseUrl)) exampleServiceArgs
          = .ok (urlunsplit { urlsplit exampleBaseUrl with
              netloc := host
              query := urlencode (mangledQuery exampleServiceArgs
                (parse_qsl (urlsplit exampleBaseUrl).query)
                [((("service_sel[]")).toList, (("1")).toList)]
                [((("voown_sel[]")).toList, (("42")).toList)]) })
        ∧ urlsplit (urlunsplit { urlsplit exampleBaseUrl with
              netloc := host
              query := urlencode (mangledQuery exampleServiceArgs
                (parse_qsl (urlsplit exampleBaseUrl).query)
                [((("service_sel[]")).toList, (("1")).toList)]
                [((("voown_sel[]")).toList, (("42")).toList)]) })
            = { urlsplit exampleBaseUrl with
                netloc := host
                query := urlencode (mangledQuery exampleServiceArgs
                  (parse_qsl (urlsplit exampleBaseUrl).query)
                  [((("service_sel[]")).toList, (("1")).toList)]
                  [((("voown_sel[]")).toList, (("42")).toList)]) }
        ∧ parse_qsl (urlencode (mangledQuery exampleServiceArgs
                (parse_qsl (urlsplit exampleBaseUrl).query)
                [((("service_sel[]")).toList, (("1")).toList)]
                [((("voown_sel[]")).toList, (("42")).toList)]))
            = mangledQuery exampleServiceArgs
                (parse_qsl (urlsplit exampleBaseUrl).query)
                [((("service_sel[]")).toList, (("1")).toList)]
                [((("voown_sel[]")).toList, (("42")).toList)]
        ∧ (truthyStr exampleServiceArgs.provides_service = true →
            ([((("service_sel[]")).toList, (("1")).toList)].map Prod.fst)
              = (pySplit ',' (exampleServiceArgs.provides_service.getD [])).map
                  (fun _ => (("service_sel[]")).toList))
        ∧ (truthyStr exampleServiceArgs.owner_vo = true →
            ([((("voown_sel[]")).toList, (("42")).toList)].map Prod.fst)
              = (pySplit ',' (exampleServiceArgs.owner_vo.getD [])).map
                  (fun _ => (("voown_sel[]")).toList)))
    ∧ (truthyStr exampleServiceArgs.host = false →
        mangle_url (.ok exampleVoMap) (urlunsplit (urlsplit exampleBaseUrl)) exampleServiceArgs
          = .ok (urlunsplit (urlsplit exampleBaseUrl))) :=
  C1_query_builder_appends_filters (urlsplit exampleBaseUrl) exampleServiceArgs exampleVoMap
    [((("service_sel[]")).toList, (("1")).toList)]
    [((("voown_sel[]")).toList, (("42")).toList)]
    (by decide) (by decide) (by decide) (by decide) (by decide) (by decide) (by decide)
    (by decide) (by decide)

end Topology
